import Mathlib

/-!
Verification development for the olx-mcp scraping engine.

The TypeScript sources are embedded shallowly: pure computations become Lean
functions, JavaScript exceptions become an explicit outcome type, the browser
page is an explicit record of the texts and attributes that the selector
queries would produce, and Date.now() is an explicit numeric argument.
-/

namespace Olx

/-- Model of a JavaScript runtime value in throw/catch positions: an Error
object carrying a message, a string, undefined, or some other object
identified by its String() conversion. -/
inductive JSVal where
  | error (message : String)
  | str (s : String)
  | undef
  | obj (stringRep : String)
deriving DecidableEq

/-- Model of the JavaScript String() conversion for the values above. String()
of an Error object is the message prefixed with the Error name. -/
def jsString : JSVal → String
  | .error m => if m = "" then "Error" else "Error: " ++ m
  | .str s => s
  | .undef => "undefined"
  | .obj r => r

/-- Model of the idiom from the sources:
error instanceof Error ? error : new Error(String(error)). -/
def toError : JSVal → JSVal
  | .error m => .error m
  | v => .error (jsString v)

/-- Outcome of awaiting a JavaScript async function: a value or a thrown value. -/
inductive JsOutcome (α : Type) where
  | ok (v : α)
  | thrown (e : JSVal)
deriving DecidableEq

/-- The Result discriminated union from src/core/types.ts. -/
inductive Result (α : Type) where
  | success (data : α)
  | failure (error : JSVal)
deriving DecidableEq

/-- createResult from src/core/types.ts. -/
def createResult {α : Type} (data : α) : Result α :=
  Result.success data

/-- createError from src/core/types.ts: takes an Error or a string, and wraps
a string with new Error(...). -/
def createError {α : Type} (e : JSVal) : Result α :=
  Result.failure (match e with | .error m => .error m | v => .error (jsString v))

/-- One zod validation issue: a path and a message. -/
structure ZodIssue where
  path : List String
  message : String
deriving DecidableEq

/-- The ZodError formatting in BaseTool.execute:
errors.map(err => err.path.join(".") + ": " + err.message).join(", "). -/
def formatZodIssues (issues : List ZodIssue) : String :=
  String.intercalate ", "
    (issues.map (fun i => String.intercalate "." i.path ++ ": " ++ i.message))

namespace BaseTool

/-- BaseTool.execute from src/tools/base/base-tool.ts, instrumented with two
booleans recording whether schema validation ran and whether executeImpl was
invoked (in the tools, all navigation happens inside executeImpl). The aborted
flag models signal?.aborted at entry, parse models inputSchema.parse, impl
models executeImpl. The try/catch of the source becomes the failure branches;
the cancellation throw is an Error, so the catch returns it unchanged. -/
def executeTrace {α β : Type} (aborted : Bool) (parse : Except (List ZodIssue) α)
    (impl : α → JsOutcome β) : Result β × Bool × Bool :=
  if aborted then
    (createError (JSVal.error "Operation cancelled"), false, false)
  else
    match parse with
    | .error issues =>
        (createError (JSVal.str ("Validation error: " ++ formatZodIssues issues)), true, false)
    | .ok args =>
        match impl args with
        | .ok v => (createResult v, true, true)
        | .thrown e => (createError (toError e), true, true)

/-- BaseTool.execute: the Result component of the instrumented run. -/
def execute {α β : Type} (aborted : Bool) (parse : Except (List ZodIssue) α)
    (impl : α → JsOutcome β) : Result β :=
  (executeTrace aborted parse impl).1

end BaseTool

theorem createError_toError {α : Type} (v : JSVal) :
    createError (α := α) (toError v) = Result.failure (toError v) := by
  cases v <;> rfl

theorem toError_isError (v : JSVal) : ∃ m, toError v = JSVal.error m := by
  cases v <;> exact ⟨_, rfl⟩

/-- C2: for every input and every behavior of the wrapped implementation,
BaseTool.execute returns a Result (it is a total function into Result); any
value thrown inside is caught and returned as a failure Result carrying an
Error-shaped value, and a thrown string or plain object is stringified into
the message of that Error rather than propagated as a structured value. -/
theorem baseTool_execute_wraps_thrown {α β : Type}
    (parse : Except (List ZodIssue) α) (impl : α → JsOutcome β)
    (args : α) (v : JSVal)
    (hparse : parse = Except.ok args) (himpl : impl args = JsOutcome.thrown v) :
    BaseTool.execute false parse impl = Result.failure (toError v)
      ∧ (∃ m, toError v = JSVal.error m)
      ∧ (∀ s, v = JSVal.str s → toError v = JSVal.error s)
      ∧ (∀ r, v = JSVal.obj r → toError v = JSVal.error r) := by
  subst hparse
  refine ⟨?_, toError_isError v, ?_, ?_⟩
  · simp only [BaseTool.execute, BaseTool.executeTrace, himpl]
    exact createError_toError v
  · rintro s rfl; rfl
  · rintro r rfl; rfl

/-- Witness for baseTool_execute_wraps_thrown at a thrown string. -/
theorem baseTool_execute_wraps_thrown_witness :
    BaseTool.execute false (Except.ok 0)
        (fun _ : Nat => (JsOutcome.thrown (JSVal.str "boom") : JsOutcome Nat))
      = Result.failure (JSVal.error "boom") :=
  (baseTool_execute_wraps_thrown (Except.ok 0)
    (fun _ : Nat => (JsOutcome.thrown (JSVal.str "boom") : JsOutcome Nat))
    0 (JSVal.str "boom") rfl rfl).1

/-- C3: a pre-signaled cancellation token makes BaseTool.execute (hence the
searchListings and getListingDetails tools, which inherit it) return a failure
Result with the cancellation message while neither running schema validation
nor invoking executeImpl, so zero navigation attempts are performed. -/
theorem presignaled_token_cancels_before_validation {α β : Type}
    (parse : Except (List ZodIssue) α) (impl : α → JsOutcome β) :
    BaseTool.executeTrace true parse impl
      = (Result.failure (JSVal.error "Operation cancelled"), false, false) := rfl

/-- The backoff computed after a failed attempt in
PlaywrightScraper.retryOperation: Math.min(1000 * Math.pow(2, attempt - 1), 10000). -/
def backoffDelay (attempt : Nat) : Nat :=
  min (1000 * 2 ^ (attempt - 1)) 10000

/-- The retry loop of PlaywrightScraper.retryOperation from
src/scrapers/base/scraper.interface.ts. The loop counter is re-indexed by the
number of attempts still allowed: left = maxRetries - attempt + 1, so the
loop guard attempt <= maxRetries becomes left >= 1 and the final-attempt check
attempt === maxRetries becomes left = 1. op gives the outcome of each
1-based attempt; the result carries the outcome, the list of backoff delays
slept between attempts, and the number of times op was invoked. When the loop
is never entered (left = 0) the source throws the never-assigned lastError,
that is, undefined. A non-final failed attempt stores
lastError = error instanceof Error ? error : new Error(String(error)) and
sleeps; the final failed attempt throws that normalized lastError. -/
def retryGo {α : Type} (op : Nat → JsOutcome α) : Nat → Nat → JsOutcome α × List Nat × Nat
  | _, 0 => (.thrown .undef, [], 0)
  | attempt, left + 1 =>
    match op attempt with
    | .ok v => (.ok v, [], 1)
    | .thrown e =>
      match left with
      | 0 => (.thrown (toError e), [], 1)
      | l + 1 =>
        let rest := retryGo op (attempt + 1) (l + 1)
        (rest.1, backoffDelay attempt :: rest.2.1, rest.2.2 + 1)

/-- PlaywrightScraper.retryOperation: attempts run from 1 to maxRetries. -/
def retryOperation {α : Type} (op : Nat → JsOutcome α) (maxRetries : Nat) :
    JsOutcome α × List Nat × Nat :=
  retryGo op 1 maxRetries

/-- The retries value of the ScraperConfig that BaseOlxScraper passes to its
base class, the default maxRetries of retryOperation in every scraper. -/
def scraperConfigRetries : Nat := 3

theorem retryGo_count_le {α : Type} (op : Nat → JsOutcome α) :
    ∀ left attempt, (retryGo op attempt left).2.2 ≤ left := by
  intro left
  induction left with
  | zero => intro attempt; simp [retryGo]
  | succ l ih =>
    intro attempt
    rw [retryGo]
    cases h : op attempt with
    | ok v => simp
    | thrown e =>
      cases l with
      | zero => simp
      | succ k => simpa using ih (attempt + 1)

theorem retryGo_count_pos {α : Type} (op : Nat → JsOutcome α) :
    ∀ left attempt, 1 ≤ left → 1 ≤ (retryGo op attempt left).2.2 := by
  intro left attempt hleft
  match left, hleft with
  | l + 1, _ =>
    rw [retryGo]
    cases op attempt with
    | ok v => simp
    | thrown e =>
      cases l with
      | zero => simp
      | succ k => simp

theorem retryGo_delays {α : Type} (op : Nat → JsOutcome α) :
    ∀ left attempt,
      (retryGo op attempt left).2.1 =
        (List.range ((retryGo op attempt left).2.2 - 1)).map
          (fun i => backoffDelay (attempt + i)) := by
  intro left
  induction left with
  | zero => intro attempt; simp [retryGo]
  | succ l ih =>
    intro attempt
    rw [retryGo]
    cases h : op attempt with
    | ok v => simp
    | thrown e =>
      cases l with
      | zero => simp
      | succ k =>
        simp only []
        have hpos := retryGo_count_pos op (k + 1) (attempt + 1) (by omega)
        have hih := ih (attempt + 1)
        rw [hih]
        have hn : (retryGo op (attempt + 1) (k + 1)).2.2 + 1 - 1 =
            ((retryGo op (attempt + 1) (k + 1)).2.2 - 1) + 1 := by omega
        rw [hn, List.range_succ_eq_map, List.map_cons, List.map_map]
        refine congrArg₂ List.cons (by rw [Nat.add_zero]) ?_
        apply List.map_congr_left
        intro a _
        simp only [Function.comp_apply]
        congr 1
        omega

theorem retryGo_first_success {α : Type} (op : Nat → JsOutcome α) :
    ∀ left attempt k v, attempt ≤ k → k < attempt + left →
      (∀ j, attempt ≤ j → j < k → ∃ e, op j = .thrown e) →
      op k = .ok v →
      (retryGo op attempt left).1 = .ok v ∧
        (retryGo op attempt left).2.2 = k - attempt + 1 := by
  intro left
  induction left with
  | zero => intro attempt k v h1 h2 _ _; omega
  | succ l ih =>
    intro attempt k v h1 h2 hfail hok
    rw [retryGo]
    rcases Nat.eq_or_lt_of_le h1 with rfl | hlt
    · simp [hok]
    · obtain ⟨e, he⟩ := hfail attempt (le_refl _) hlt
      rw [he]
      cases l with
      | zero => omega
      | succ m =>
        have := ih (attempt + 1) k v hlt (by omega)
          (fun j hj1 hj2 => hfail j (by omega) hj2) hok
        simp only []
        refine ⟨this.1, ?_⟩
        rw [this.2]
        omega

theorem retryGo_all_fail {α : Type} (op : Nat → JsOutcome α) :
    ∀ left attempt, 1 ≤ left →
      (∀ j, attempt ≤ j → j < attempt + left → ∃ e, op j = .thrown e) →
      ∃ e, op (attempt + left - 1) = .thrown e ∧
        (retryGo op attempt left).1 = .thrown (toError e) ∧
        (retryGo op attempt left).2.2 = left := by
  intro left
  induction left with
  | zero => intro attempt h; omega
  | succ l ih =>
    intro attempt _ hfail
    obtain ⟨e, he⟩ := hfail attempt (le_refl _) (by omega)
    rw [retryGo, he]
    cases l with
    | zero => exact ⟨e, by simpa using he, by simp⟩
    | succ m =>
      obtain ⟨e2, he2, hr, hc⟩ := ih (attempt + 1) (by omega)
        (fun j hj1 hj2 => hfail j (by omega) (by omega))
      refine ⟨e2, ?_, ?_, ?_⟩
      · convert he2 using 2; omega
      · simpa using hr
      · simp only []
        rw [hc]

/-- C4: retryOperation invokes the operation at most maxAttempts times (the
scrapers default maxAttempts to the configured 3); a failure of attempt k with
k < maxAttempts is followed by a delay of min(1000 * 2^(k-1), 10000)
milliseconds before the next attempt (the recorded delay list is exactly the
backoff sequence); if some attempt succeeds after all earlier ones failed, its
value is returned and no further attempts run; if every attempt fails, the
final attempt error is propagated (unchanged whenever it is an Error value). -/
theorem retryOperation_spec {α : Type} (op : Nat → JsOutcome α) (maxRetries : Nat) :
    (retryOperation op maxRetries).2.2 ≤ maxRetries
      ∧ (retryOperation op maxRetries).2.1 =
          (List.range ((retryOperation op maxRetries).2.2 - 1)).map
            (fun i => min (1000 * 2 ^ i) 10000)
      ∧ (∀ k v, 1 ≤ k → k ≤ maxRetries →
          (∀ j, 1 ≤ j → j < k → ∃ e, op j = .thrown e) →
          op k = .ok v →
          (retryOperation op maxRetries).1 = .ok v ∧
            (retryOperation op maxRetries).2.2 = k)
      ∧ (1 ≤ maxRetries →
          (∀ j, 1 ≤ j → j ≤ maxRetries → ∃ e, op j = .thrown e) →
          ∃ e, op maxRetries = .thrown e ∧
            (retryOperation op maxRetries).1 = .thrown (toError e) ∧
            (∀ m, e = JSVal.error m → toError e = e) ∧
            (retryOperation op maxRetries).2.2 = maxRetries)
      ∧ scraperConfigRetries = 3 := by
  refine ⟨retryGo_count_le op maxRetries 1, ?_, ?_, ?_, rfl⟩
  · have := retryGo_delays op maxRetries 1
    simpa [retryOperation, backoffDelay] using this
  · intro k v h1 h2 hfail hok
    have := retryGo_first_success op maxRetries 1 k v h1 (by omega) hfail hok
    exact ⟨this.1, by show (retryGo op 1 maxRetries).2.2 = k; rw [this.2]; omega⟩
  · intro hmax hfail
    obtain ⟨e, he, hr, hc⟩ := retryGo_all_fail op maxRetries 1 hmax
      (fun j hj1 hj2 => hfail j hj1 (by omega))
    refine ⟨e, ?_, hr, ?_, hc⟩
    · convert he using 2; omega
    · rintro m rfl; rfl

/-- Witness for retryOperation_spec: an operation failing on attempts 1 and 2
and succeeding on attempt 3, with maxAttempts 3, returns the attempt-3 value
after invoking the operation exactly 3 times, with delays 1000 then 2000; an
operation failing on all 3 attempts propagates the final Error unchanged. -/
theorem retryOperation_spec_witness :
    (retryOperation
        (fun k => if k < 3 then JsOutcome.thrown (JSVal.error ("fail" ++ toString k))
                  else (JsOutcome.ok 7 : JsOutcome Nat)) 3).1 = JsOutcome.ok 7
      ∧ (retryOperation
          (fun k => if k < 3 then JsOutcome.thrown (JSVal.error ("fail" ++ toString k))
                    else (JsOutcome.ok 7 : JsOutcome Nat)) 3).2.2 = 3
      ∧ (retryOperation
          (fun k => if k < 3 then JsOutcome.thrown (JSVal.error ("fail" ++ toString k))
                    else (JsOutcome.ok 7 : JsOutcome Nat)) 3).2.1 = [1000, 2000]
      ∧ (retryOperation
          (fun _ : Nat => (JsOutcome.thrown (JSVal.error "down") : JsOutcome Nat)) 3).1
          = JsOutcome.thrown (JSVal.error "down") := by
  have h3 := (retryOperation_spec
    (fun k => if k < 3 then JsOutcome.thrown (JSVal.error ("fail" ++ toString k))
              else (JsOutcome.ok 7 : JsOutcome Nat)) 3).2.2.1 3 7 (by decide) (by decide)
    (fun j hj1 hj2 => ⟨JSVal.error ("fail" ++ toString j), by
      simp only [if_pos hj2]⟩) (by norm_num)
  have hdelays := (retryOperation_spec
    (fun k => if k < 3 then JsOutcome.thrown (JSVal.error ("fail" ++ toString k))
              else (JsOutcome.ok 7 : JsOutcome Nat)) 3).2.1
  have hall := (retryOperation_spec
    (fun _ : Nat => (JsOutcome.thrown (JSVal.error "down") : JsOutcome Nat)) 3).2.2.2.1
    (by decide) (fun j _ _ => ⟨JSVal.error "down", rfl⟩)
  obtain ⟨e, he, hr, hunch, _⟩ := hall
  refine ⟨h3.1, h3.2, ?_, ?_⟩
  · rw [hdelays, h3.2]; decide
  · cases he
    rw [hr, hunch "down" rfl]

/-- The first match of the regex (\d+) over a character list: the maximal
digit run starting at the first digit, or none when no digit occurs. -/
def firstDigitRun : List Char → Option (List Char)
  | [] => none
  | c :: rest =>
    if c.isDigit then some (c :: rest.takeWhile Char.isDigit)
    else firstDigitRun rest

/-- parseInt(digits, 10) on a digit run, as a natural number. -/
def parseDigits (ds : List Char) : Nat :=
  ds.foldl (fun n c => n * 10 + (c.toNat - 48)) 0

/-- The body of the totalCount extraction in
BaseOlxScraper.extractPaginationInfo: read the total-count element text, take
the first integer by regex, else 0; the cell argument is none when the
selector query fails (the .catch(() => 0) path). -/
def extractTotalCount (cell : Option String) : Nat :=
  match cell with
  | none => 0
  | some text =>
    match firstDigitRun text.toList with
    | some ds => parseDigits ds
    | none => 0

/-- The page size constant of BaseOlxScraper.extractPaginationInfo, shared by
every domain because it lives in the shared base class. -/
def itemsPerPage : Nat := 40

/-- The pagination record returned by BaseOlxScraper.extractPaginationInfo. -/
structure PaginationInfo where
  totalCount : Nat
  currentPage : Rat
  totalPages : Nat
  hasNextPage : Bool
deriving DecidableEq

/-- BaseOlxScraper.extractPaginationInfo: totalCount from the total-count
element, hasNextPage from presence of the next-page element, and
totalPages = Math.max(Math.ceil(totalCount / itemsPerPage), 1). Math.ceil on
the exact quotient of naturals is ceiling division. -/
def extractPaginationInfo (totalCountCell : Option String) (nextPagePresent : Bool)
    (currentPage : Rat) : PaginationInfo :=
  let totalCount := extractTotalCount totalCountCell
  let totalPages := (totalCount + itemsPerPage - 1) / itemsPerPage
  { totalCount := totalCount
    currentPage := currentPage
    totalPages := max totalPages 1
    hasNextPage := nextPagePresent }

theorem firstDigitRun_eq_none_of_no_digit :
    ∀ cs : List Char, (∀ c ∈ cs, ¬ c.isDigit) → firstDigitRun cs = none := by
  intro cs h
  induction cs with
  | nil => rfl
  | cons c rest ih =>
    rw [firstDigitRun]
    rw [if_neg (by simpa using h c (by simp))]
    exact ih (fun d hd => h d (by simp [hd]))

/-- C6: pagination is computed by regex-extracting the first integer from the
total-count element (totalCount defaults to 0 when the element is absent or
its text has no digit), hasNextPage is true exactly when a next-page element
is present, and totalPages is totalCount divided by the page-size constant 40
(shared across all five domains) rounded up and floored at 1. -/
theorem extractPaginationInfo_spec (cell : Option String) (next : Bool) (cur : Rat) :
    (cell = none → (extractPaginationInfo cell next cur).totalCount = 0)
      ∧ (∀ t, cell = some t → (∀ c ∈ t.toList, ¬ c.isDigit) →
          (extractPaginationInfo cell next cur).totalCount = 0)
      ∧ (∀ t ds, cell = some t → firstDigitRun t.toList = some ds →
          (extractPaginationInfo cell next cur).totalCount = parseDigits ds)
      ∧ (extractPaginationInfo cell next cur).hasNextPage = next
      ∧ (extractPaginationInfo cell next cur).currentPage = cur
      ∧ itemsPerPage = 40
      ∧ (extractPaginationInfo cell next cur).totalPages =
          max ((extractTotalCount cell + 39) / 40) 1
      ∧ 1 ≤ (extractPaginationInfo cell next cur).totalPages := by
  refine ⟨?_, ?_, ?_, rfl, rfl, rfl, rfl, ?_⟩
  · rintro rfl; rfl
  · rintro t rfl hnod
    have hn : firstDigitRun t.data = none :=
      firstDigitRun_eq_none_of_no_digit t.data (by simpa [String.toList] using hnod)
    simp [extractPaginationInfo, extractTotalCount, hn]
  · rintro t ds rfl hds
    simp only [String.toList] at hds
    simp [extractPaginationInfo, extractTotalCount, hds]
  · exact le_max_right _ 1

/-- Witness for extractPaginationInfo_spec on a concrete total-count text. -/
theorem extractPaginationInfo_spec_witness :
    (extractPaginationInfo (some "Found 1234 ads") true 2).totalCount = 1234
      ∧ (extractPaginationInfo (some "Found 1234 ads") true 2).totalPages = 31
      ∧ (extractPaginationInfo (some "no numbers here") false 1).totalCount = 0 := by
  have h := (extractPaginationInfo_spec (some "Found 1234 ads") true 2).2.2.1
    "Found 1234 ads" ('1' :: '2' :: '3' :: '4' :: []) rfl (by decide)
  have h2 := (extractPaginationInfo_spec (some "no numbers here") false 1).2.1
    "no numbers here" rfl (by decide)
  refine ⟨by rw [h]; decide, ?_, h2⟩
  have h3 := (extractPaginationInfo_spec (some "Found 1234 ads") true 2).2.2.2.2.2.2.1
  rw [h3]
  decide

/-- Model of String.prototype.toLowerCase restricted to the characters the
domain configs act on: ASCII letters and the Polish and Romanian capital
letters matched by the replace chains; every other character is unchanged. -/
def jsToLowerChar (c : Char) : Char :=
  match c with
  | 'A' => 'a' | 'B' => 'b' | 'C' => 'c' | 'D' => 'd' | 'E' => 'e' | 'F' => 'f'
  | 'G' => 'g' | 'H' => 'h' | 'I' => 'i' | 'J' => 'j' | 'K' => 'k' | 'L' => 'l'
  | 'M' => 'm' | 'N' => 'n' | 'O' => 'o' | 'P' => 'p' | 'Q' => 'q' | 'R' => 'r'
  | 'S' => 's' | 'T' => 't' | 'U' => 'u' | 'V' => 'v' | 'W' => 'w' | 'X' => 'x'
  | 'Y' => 'y' | 'Z' => 'z'
  | 'Ą' => 'ą' | 'Ć' => 'ć' | 'Ę' => 'ę' | 'Ł' => 'ł' | 'Ń' => 'ń' | 'Ó' => 'ó'
  | 'Ś' => 'ś' | 'Ź' => 'ź' | 'Ż' => 'ż'
  | 'Ă' => 'ă' | 'Â' => 'â' | 'Î' => 'î' | 'Ș' => 'ș' | 'Ț' => 'ț'
  | other => other

/-- The regex class backslash-s over the whitespace characters it commonly
matches: space, tab, line feed, carriage return, vertical tab, form feed and
no-break space. -/
def isJsSpace (c : Char) : Bool :=
  c = ' ' || c = '\t' || c = '\n' || c = '\r' || c = '\u000B' || c = '\u000C' ||
    c = ' '

/-- The character class kept by replace with pattern [^a-z0-9\s-] and empty
replacement: ASCII lower-case letters, ASCII digits, whitespace, and dash.
Folded diacritic letters are outside a-z and are therefore removed. -/
def isSlugKeep (c : Char) : Bool :=
  ('a' ≤ c && c ≤ 'z') || ('0' ≤ c && c ≤ '9') || isJsSpace c || c = '-'

/-- Global replacement of every maximal run of characters matching p by the
single character r; the boolean records whether the previous character was
inside a run. Models replace(/X+/g, r). -/
def squashRuns (p : Char → Bool) (r : Char) : Bool → List Char → List Char
  | _, [] => []
  | prev, c :: cs =>
    if p c then
      if prev then squashRuns p r true cs
      else r :: squashRuns p r true cs
    else c :: squashRuns p r false cs

/-- replace(/X+/g, r) on a character list. -/
def replaceRuns (p : Char → Bool) (r : Char) (s : List Char) : List Char :=
  squashRuns p r false s

/-- replace(/a/g, b) for a single character a. -/
def mapChar (a b : Char) (s : List Char) : List Char :=
  s.map (fun c => if c = a then b else c)

/-- The leading-dash half of replace with pattern anchored-dash-or-dash-anchored. -/
def dropLeadingDash : List Char → List Char
  | '-' :: rest => rest
  | s => s

/-- The trailing-dash half of the same replacement. -/
def dropTrailingDash (s : List Char) : List Char :=
  if s.getLast? = some '-' then s.dropLast else s

/-- Model of replace(/^-|-$/g, empty): drops one leading and one trailing dash. -/
def trimEdgeDashes (s : List Char) : List Char :=
  dropTrailingDash (dropLeadingDash s)

/-- The olx.pt location slug: toLowerCase then whitespace runs to dashes. -/
def ptLocationSlug (l : String) : String :=
  String.mk (replaceRuns isJsSpace '-' (l.toList.map jsToLowerChar))

/-- The olx.pt query slug as written in the location branch of searchPath:
toLowerCase, strip non-slug characters, whitespace runs to dashes, collapse
dash runs, trim edge dashes. -/
def ptQuerySlugLoc (q : String) : String :=
  String.mk (trimEdgeDashes (replaceRuns (fun c => c = '-') '-'
    (replaceRuns isJsSpace '-' ((q.toList.map jsToLowerChar).filter isSlugKeep))))

/-- The olx.pt query slug as written in the query-only branch of searchPath. -/
def ptQuerySlugFlat (q : String) : String :=
  String.mk (trimEdgeDashes (replaceRuns (fun c => c = '-') '-'
    (replaceRuns isJsSpace '-' ((q.toList.map jsToLowerChar).filter isSlugKeep))))

/-- The olx.pl location slug: toLowerCase, whitespace runs to dashes, then the
nine Polish diacritic replacements in source order. -/
def plLocationSlug (l : String) : String :=
  String.mk (mapChar 'ż' 'z' (mapChar 'ź' 'z' (mapChar 'ś' 's' (mapChar 'ó' 'o'
    (mapChar 'ń' 'n' (mapChar 'ł' 'l' (mapChar 'ę' 'e' (mapChar 'ć' 'c'
      (mapChar 'ą' 'a' (replaceRuns isJsSpace '-' (l.toList.map jsToLowerChar)))))))))))

/-- The olx.pl query slug in the location branch: toLowerCase, the nine
diacritic replacements, strip, whitespace runs to dashes, collapse dashes,
trim edge dashes. -/
def plQuerySlugLoc (q : String) : String :=
  String.mk (trimEdgeDashes (replaceRuns (fun c => c = '-') '-'
    (replaceRuns isJsSpace '-'
      ((mapChar 'ż' 'z' (mapChar 'ź' 'z' (mapChar 'ś' 's' (mapChar 'ó' 'o'
        (mapChar 'ń' 'n' (mapChar 'ł' 'l' (mapChar 'ę' 'e' (mapChar 'ć' 'c'
          (mapChar 'ą' 'a' (q.toList.map jsToLowerChar)))))))))).filter isSlugKeep))))

/-- The olx.pl query slug in the query-only branch, written identically. -/
def plQuerySlugFlat (q : String) : String :=
  String.mk (trimEdgeDashes (replaceRuns (fun c => c = '-') '-'
    (replaceRuns isJsSpace '-'
      ((mapChar 'ż' 'z' (mapChar 'ź' 'z' (mapChar 'ś' 's' (mapChar 'ó' 'o'
        (mapChar 'ń' 'n' (mapChar 'ł' 'l' (mapChar 'ę' 'e' (mapChar 'ć' 'c'
          (mapChar 'ą' 'a' (q.toList.map jsToLowerChar)))))))))).filter isSlugKeep))))

/-- The olx.bg location slug (same shape as olx.pt). -/
def bgLocationSlug (l : String) : String :=
  String.mk (replaceRuns isJsSpace '-' (l.toList.map jsToLowerChar))

/-- The olx.bg query slug in the location branch. -/
def bgQuerySlugLoc (q : String) : String :=
  String.mk (trimEdgeDashes (replaceRuns (fun c => c = '-') '-'
    (replaceRuns isJsSpace '-' ((q.toList.map jsToLowerChar).filter isSlugKeep))))

/-- The olx.bg query slug in the query-only branch. -/
def bgQuerySlugFlat (q : String) : String :=
  String.mk (trimEdgeDashes (replaceRuns (fun c => c = '-') '-'
    (replaceRuns isJsSpace '-' ((q.toList.map jsToLowerChar).filter isSlugKeep))))

/-- The olx.ro location slug: toLowerCase, whitespace runs to dashes, then the
five Romanian diacritic replacements. -/
def roLocationSlug (l : String) : String :=
  String.mk (mapChar 'ț' 't' (mapChar 'ș' 's' (mapChar 'î' 'i' (mapChar 'â' 'a'
    (mapChar 'ă' 'a' (replaceRuns isJsSpace '-' (l.toList.map jsToLowerChar)))))))

/-- The olx.ro query slug in the location branch: toLowerCase, strip first,
then the five diacritic replacements (no-ops at this point, exactly as the
source orders them), whitespace runs, collapse dashes, trim. -/
def roQuerySlugLoc (q : String) : String :=
  String.mk (trimEdgeDashes (replaceRuns (fun c => c = '-') '-'
    (replaceRuns isJsSpace '-'
      (mapChar 'ț' 't' (mapChar 'ș' 's' (mapChar 'î' 'i' (mapChar 'â' 'a'
        (mapChar 'ă' 'a' ((q.toList.map jsToLowerChar).filter isSlugKeep)))))))))

/-- The olx.ro query slug in the query-only branch, written identically. -/
def roQuerySlugFlat (q : String) : String :=
  String.mk (trimEdgeDashes (replaceRuns (fun c => c = '-') '-'
    (replaceRuns isJsSpace '-'
      (mapChar 'ț' 't' (mapChar 'ș' 's' (mapChar 'î' 'i' (mapChar 'â' 'a'
        (mapChar 'ă' 'a' ((q.toList.map jsToLowerChar).filter isSlugKeep)))))))))

/-- The olx.ua location slug (same shape as olx.pt). -/
def uaLocationSlug (l : String) : String :=
  String.mk (replaceRuns isJsSpace '-' (l.toList.map jsToLowerChar))

/-- The olx.ua query slug in the location branch. -/
def uaQuerySlugLoc (q : String) : String :=
  String.mk (trimEdgeDashes (replaceRuns (fun c => c = '-') '-'
    (replaceRuns isJsSpace '-' ((q.toList.map jsToLowerChar).filter isSlugKeep))))

/-- The olx.ua query slug in the query-only branch. -/
def uaQuerySlugFlat (q : String) : String :=
  String.mk (trimEdgeDashes (replaceRuns (fun c => c = '-') '-'
    (replaceRuns isJsSpace '-' ((q.toList.map jsToLowerChar).filter isSlugKeep))))

/-- JavaScript truthiness of an optional string argument: present and
non-empty. -/
def jsTruthyS (o : Option String) : Bool :=
  match o with
  | some s => !(s == "")
  | none => false

/-- The searchPath builder of the olx.pt config from
src/scrapers/olx/domain-config.ts. -/
def ptSearchPath (location query : Option String) : String :=
  if jsTruthyS location then
    let base := "/" ++ ptLocationSlug (location.getD "")
    if jsTruthyS query then base ++ "/q-" ++ ptQuerySlugLoc (query.getD "") ++ "/"
    else base ++ "/"
  else
    if jsTruthyS query then "/ads/" ++ "q-" ++ ptQuerySlugFlat (query.getD "") ++ "/"
    else "/ads/"

/-- The searchPath builder of the olx.pl config. -/
def plSearchPath (location query : Option String) : String :=
  if jsTruthyS location then
    let base := "/" ++ plLocationSlug (location.getD "")
    if jsTruthyS query then base ++ "/q-" ++ plQuerySlugLoc (query.getD "") ++ "/"
    else base ++ "/"
  else
    if jsTruthyS query then "/oferty/" ++ "q-" ++ plQuerySlugFlat (query.getD "") ++ "/"
    else "/oferty/"

/-- The searchPath builder of the olx.bg config. -/
def bgSearchPath (location query : Option String) : String :=
  if jsTruthyS location then
    let base := "/" ++ bgLocationSlug (location.getD "")
    if jsTruthyS query then base ++ "/q-" ++ bgQuerySlugLoc (query.getD "") ++ "/"
    else base ++ "/"
  else
    if jsTruthyS query then "/ads/" ++ "q-" ++ bgQuerySlugFlat (query.getD "") ++ "/"
    else "/ads/"

/-- The searchPath builder of the olx.ro config. -/
def roSearchPath (location query : Option String) : String :=
  if jsTruthyS location then
    let base := "/" ++ roLocationSlug (location.getD "")
    if jsTruthyS query then base ++ "/q-" ++ roQuerySlugLoc (query.getD "") ++ "/"
    else base ++ "/"
  else
    if jsTruthyS query then "/ads/" ++ "q-" ++ roQuerySlugFlat (query.getD "") ++ "/"
    else "/ads/"

/-- The searchPath builder of the olx.ua config. -/
def uaSearchPath (location query : Option String) : String :=
  if jsTruthyS location then
    let base := "/" ++ uaLocationSlug (location.getD "")
    if jsTruthyS query then base ++ "/q-" ++ uaQuerySlugLoc (query.getD "") ++ "/"
    else base ++ "/"
  else
    if jsTruthyS query then "/ads/" ++ "q-" ++ uaQuerySlugFlat (query.getD "") ++ "/"
    else "/ads/"

/-- The five supported domains (OlxDomain in src/core/types.ts). -/
inductive OlxDomain where
  | pt | pl | bg | ro | ua
deriving DecidableEq

/-- The sort modes of SearchFilters. -/
inductive SortBy where
  | relevance | date | priceAsc | priceDesc
deriving DecidableEq

/-- The urlPatterns record of a DomainConfig: searchPath builder, price and
category and page parameter names, and the sort-mode-to-value record
(a lookup of a key absent from the record yields none). -/
structure UrlPatterns where
  searchPath : Option String → Option String → String
  priceMin : String
  priceMax : String
  sortParams : SortBy → Option String
  categoryParam : String
  pageParam : String

/-- A DomainConfig as in src/core/types.ts, restricted to the data the claims
touch (the selector strings are treated abstractly by the page models). -/
structure DomainConfig where
  domain : OlxDomain
  baseUrl : String
  currency : String
  language : String
  urlPatterns : UrlPatterns

/-- OLX_DOMAIN_CONFIGS entry for olx.pt. -/
def olxPtConfig : DomainConfig where
  domain := .pt
  baseUrl := "https://www.olx.pt"
  currency := "EUR"
  language := "pt"
  urlPatterns :=
    { searchPath := ptSearchPath
      priceMin := "search[filter_float_price:from]"
      priceMax := "search[filter_float_price:to]"
      sortParams := fun sb =>
        match sb with
        | .date => some "created_at:desc"
        | .priceAsc => some "filter_float_price:asc"
        | .priceDesc => some "filter_float_price:desc"
        | .relevance => none
      categoryParam := "c"
      pageParam := "page" }

/-- OLX_DOMAIN_CONFIGS entry for olx.pl. -/
def olxPlConfig : DomainConfig where
  domain := .pl
  baseUrl := "https://www.olx.pl"
  currency := "PLN"
  language := "pl"
  urlPatterns :=
    { searchPath := plSearchPath
      priceMin := "search[filter_float_price:from]"
      priceMax := "search[filter_float_price:to]"
      sortParams := fun sb =>
        match sb with
        | .date => some "created_at:desc"
        | .priceAsc => some "filter_float_price:asc"
        | .priceDesc => some "filter_float_price:desc"
        | .relevance => none
      categoryParam := "c"
      pageParam := "page" }

/-- OLX_DOMAIN_CONFIGS entry for olx.bg. -/
def olxBgConfig : DomainConfig where
  domain := .bg
  baseUrl := "https://www.olx.bg"
  currency := "BGN"
  language := "bg"
  urlPatterns :=
    { searchPath := bgSearchPath
      priceMin := "search[filter_float_price:from]"
      priceMax := "search[filter_float_price:to]"
      sortParams := fun sb =>
        match sb with
        | .date => some "created_at:desc"
        | .priceAsc => some "filter_float_price:asc"
        | .priceDesc => some "filter_float_price:desc"
        | .relevance => none
      categoryParam := "c"
      pageParam := "page" }

/-- OLX_DOMAIN_CONFIGS entry for olx.ro. -/
def olxRoConfig : DomainConfig where
  domain := .ro
  baseUrl := "https://www.olx.ro"
  currency := "RON"
  language := "ro"
  urlPatterns :=
    { searchPath := roSearchPath
      priceMin := "search[filter_float_price:from]"
      priceMax := "search[filter_float_price:to]"
      sortParams := fun sb =>
        match sb with
        | .date => some "created_at:desc"
        | .priceAsc => some "filter_float_price:asc"
        | .priceDesc => some "filter_float_price:desc"
        | .relevance => none
      categoryParam := "c"
      pageParam := "page" }

/-- OLX_DOMAIN_CONFIGS entry for olx.ua. -/
def olxUaConfig : DomainConfig where
  domain := .ua
  baseUrl := "https://www.olx.ua"
  currency := "UAH"
  language := "uk"
  urlPatterns :=
    { searchPath := uaSearchPath
      priceMin := "search[filter_float_price:from]"
      priceMax := "search[filter_float_price:to]"
      sortParams := fun sb =>
        match sb with
        | .date => some "created_at:desc"
        | .priceAsc => some "filter_float_price:asc"
        | .priceDesc => some "filter_float_price:desc"
        | .relevance => none
      categoryParam := "c"
      pageParam := "page" }

/-- getDomainConfig from src/scrapers/olx/domain-config.ts (total on the
enumerated domain type; the throw branch is unreachable for it). -/
def getDomainConfig : OlxDomain → DomainConfig
  | .pt => olxPtConfig
  | .pl => olxPlConfig
  | .bg => olxBgConfig
  | .ro => olxRoConfig
  | .ua => olxUaConfig

/-- C8: for every domain config and all non-empty query and location strings,
the q-slug segment embedded by the searchPath builder is computed by the same
pipeline in the query-plus-location branch and the query-only branch, so
searchPath(loc, q) embeds exactly the same q-slug as searchPath(undefined, q). -/
theorem searchPath_slug_consistency (loc q : String) (hloc : loc ≠ "") (hq : q ≠ "") :
    (ptSearchPath (some loc) (some q)
          = "/" ++ ptLocationSlug loc ++ "/q-" ++ ptQuerySlugLoc q ++ "/"
        ∧ ptSearchPath none (some q) = "/ads/q-" ++ ptQuerySlugFlat q ++ "/"
        ∧ ptQuerySlugLoc q = ptQuerySlugFlat q)
      ∧ (plSearchPath (some loc) (some q)
          = "/" ++ plLocationSlug loc ++ "/q-" ++ plQuerySlugLoc q ++ "/"
        ∧ plSearchPath none (some q) = "/oferty/q-" ++ plQuerySlugFlat q ++ "/"
        ∧ plQuerySlugLoc q = plQuerySlugFlat q)
      ∧ (bgSearchPath (some loc) (some q)
          = "/" ++ bgLocationSlug loc ++ "/q-" ++ bgQuerySlugLoc q ++ "/"
        ∧ bgSearchPath none (some q) = "/ads/q-" ++ bgQuerySlugFlat q ++ "/"
        ∧ bgQuerySlugLoc q = bgQuerySlugFlat q)
      ∧ (roSearchPath (some loc) (some q)
          = "/" ++ roLocationSlug loc ++ "/q-" ++ roQuerySlugLoc q ++ "/"
        ∧ roSearchPath none (some q) = "/ads/q-" ++ roQuerySlugFlat q ++ "/"
        ∧ roQuerySlugLoc q = roQuerySlugFlat q)
      ∧ (uaSearchPath (some loc) (some q)
          = "/" ++ uaLocationSlug loc ++ "/q-" ++ uaQuerySlugLoc q ++ "/"
        ∧ uaSearchPath none (some q) = "/ads/q-" ++ uaQuerySlugFlat q ++ "/"
        ∧ uaQuerySlugLoc q = uaQuerySlugFlat q) := by
  have hl : jsTruthyS (some loc) = true := by simp [jsTruthyS, hloc]
  have hqt : jsTruthyS (some q) = true := by simp [jsTruthyS, hq]
  refine ⟨⟨?_, ?_, rfl⟩, ⟨?_, ?_, rfl⟩, ⟨?_, ?_, rfl⟩, ⟨?_, ?_, rfl⟩, ⟨?_, ?_, rfl⟩⟩ <;>
    simp [ptSearchPath, plSearchPath, bgSearchPath, roSearchPath, uaSearchPath,
      jsTruthyS, hloc, hq, hl, hqt, String.append_assoc]

/-- Witness for searchPath_slug_consistency at concrete Polish inputs. -/
theorem searchPath_slug_consistency_witness :
    plSearchPath (some "Łódź") (some "Żółć 5") = "/lodz/q-zolc-5/"
      ∧ plSearchPath none (some "Żółć 5") = "/oferty/q-zolc-5/"
      ∧ plQuerySlugLoc "Żółć 5" = plQuerySlugFlat "Żółć 5" := by
  have h := (searchPath_slug_consistency "Łódź" "Żółć 5" (by decide) (by decide)).2.1
  refine ⟨?_, ?_, h.2.2⟩
  · rw [h.1]; decide
  · rw [h.2.1]; decide

/-- JavaScript truthiness of an optional numeric filter field: present and
non-zero (zod rejects NaN, so non-zero numbers are the truthy ones). -/
def jsTruthyN (o : Option Rat) : Bool :=
  match o with
  | some q => decide (q ≠ 0)
  | none => false

/-- The SearchFilters record of src/core/types.ts. Numeric fields are
rationals because the zod schema validates them as numbers, not integers. -/
structure SearchFilters where
  domain : OlxDomain
  query : Option String := none
  category : Option String := none
  location : Option String := none
  minPrice : Option Rat := none
  maxPrice : Option Rat := none
  page : Option Rat := none
  limit : Option Rat := none
  sortBy : Option SortBy := none
deriving DecidableEq

/-- The values SearchListingsArgsSchema admits, as a predicate on the parsed
SearchFilters (page, limit and sortBy carry schema defaults, hence are always
present after validation). The two refinements use JavaScript truthiness as
the source does: a zero price passes the max-vs-min refinement vacuously, and
an empty category or location string does not satisfy the at-least-one-of
refinement. -/
def validSearchFilters (f : SearchFilters) : Bool :=
  (match f.query with
   | none => true
   | some q => decide (1 ≤ q.length) && decide (q.length ≤ 100))
  && (match f.minPrice with | none => true | some p => decide (0 ≤ p))
  && (match f.maxPrice with | none => true | some p => decide (0 ≤ p))
  && (match f.page with | some p => decide (1 ≤ p) | none => false)
  && (match f.limit with
      | some l => decide (1 ≤ l) && decide (l ≤ 50)
      | none => false)
  && f.sortBy.isSome
  && (!(jsTruthyN f.maxPrice) || !(jsTruthyN f.minPrice) ||
      (match f.minPrice, f.maxPrice with
       | some mn, some mx => decide (mn ≤ mx)
       | _, _ => true))
  && (jsTruthyS f.query || jsTruthyS f.category || jsTruthyS f.location)

/-- Number-to-string conversion used when a numeric filter is written into a
query parameter; modeled exactly for integral values (the only ones any claim
evaluates). -/
def numToStr (q : Rat) : String :=
  if q.den = 1 then toString q.num else toString q

/-- One piece of a query string, split at its first equals sign. -/
def parseParamPiece (piece : List Char) : String × String :=
  match piece.dropWhile (fun c => c ≠ '=') with
  | [] => (String.mk piece, "")
  | _ :: v => (String.mk (piece.takeWhile (fun c => c ≠ '=')), String.mk v)

/-- The query parameters that the WHATWG URL constructor reads out of a path
string: the part after the first question mark and before any hash, split on
ampersands (percent-decoding is not modeled; every claim that relies on this
function does so under a hypothesis that makes the result empty). -/
def parseQueryString (s : String) : List (String × String) :=
  match (s.toList.takeWhile (fun c => c ≠ '#')).dropWhile (fun c => c ≠ '?') with
  | [] => []
  | _ :: qs => ((qs.splitOn '&').filter (fun p => !p.isEmpty)).map parseParamPiece

/-- URLSearchParams.set: replace the value of an existing parameter with the
same name, else append the pair at the end. -/
def setParam (ps : List (String × String)) (name value : String) :
    List (String × String) :=
  if ps.any (fun p => p.1 = name) then
    ps.map (fun p => if p.1 = name then (name, value) else p)
  else ps ++ [(name, value)]

/-- The URL object built by buildSearchUrl, kept as its path and its search
parameter list; a parameter is in the serialized URL iff it is in the list. -/
structure UrlModel where
  path : String
  params : List (String × String)
deriving DecidableEq

/-- BaseOlxScraper.buildSearchUrl from base-olx.scraper.ts: build the path
with the config searchPath, then conditionally set category, min price, max
price, sort and page parameters; every condition is JavaScript truthiness as
written in the source (so a zero price or an empty category string sets
nothing), the sort parameter is set only for a non-relevance sort whose
configured value is truthy, and the page parameter only for a truthy page
greater than 1. -/
def buildSearchUrl (cfg : DomainConfig) (f : SearchFilters) : UrlModel :=
  let path := cfg.urlPatterns.searchPath f.location f.query
  let ps0 := parseQueryString path
  let ps1 :=
    if jsTruthyS f.category then
      setParam ps0 cfg.urlPatterns.categoryParam (f.category.getD "")
    else ps0
  let ps2 :=
    if jsTruthyN f.minPrice then
      setParam ps1 cfg.urlPatterns.priceMin (numToStr (f.minPrice.getD 0))
    else ps1
  let ps3 :=
    if jsTruthyN f.maxPrice then
      setParam ps2 cfg.urlPatterns.priceMax (numToStr (f.maxPrice.getD 0))
    else ps2
  let ps4 :=
    match f.sortBy with
    | some sb =>
      if sb ≠ SortBy.relevance then
        match cfg.urlPatterns.sortParams sb with
        | some v => if v ≠ "" then setParam ps3 "search[order]" v else ps3
        | none => ps3
      else ps3
    | none => ps3
  let ps5 :=
    match f.page with
    | some p =>
      if decide (p ≠ 0) && decide (1 < p) then
        setParam ps4 cfg.urlPatterns.pageParam (numToStr p)
      else ps4
    | none => ps4
  { path := path, params := ps5 }

/-- A parameter with the given name occurs in the built URL. -/
def hasParam (u : UrlModel) (name : String) : Bool :=
  u.params.any (fun p => p.1 = name)

theorem mem_squashRuns {p : Char → Bool} {r : Char} :
    ∀ {s : List Char} {b : Bool} {c : Char}, c ∈ squashRuns p r b s → c = r ∨ c ∈ s := by
  intro s
  induction s with
  | nil => intro b c h; simp [squashRuns] at h
  | cons x xs ih =>
    intro b c h
    rw [squashRuns] at h
    split_ifs at h with hx hb
    · rcases ih h with h1 | h1
      · exact Or.inl h1
      · exact Or.inr (List.mem_cons_of_mem _ h1)
    · rcases List.mem_cons.mp h with h1 | h1
      · exact Or.inl h1
      · rcases ih h1 with h2 | h2
        · exact Or.inl h2
        · exact Or.inr (List.mem_cons_of_mem _ h2)
    · rcases List.mem_cons.mp h with h1 | h1
      · exact Or.inr (by simp [h1])
      · rcases ih h1 with h2 | h2
        · exact Or.inl h2
        · exact Or.inr (List.mem_cons_of_mem _ h2)

theorem mem_mapChar {a b : Char} {s : List Char} {c : Char}
    (h : c ∈ mapChar a b s) : c = b ∨ c ∈ s := by
  simp only [mapChar, List.mem_map] at h
  obtain ⟨x, hx, hmap⟩ := h
  by_cases hxa : x = a
  · rw [if_pos hxa] at hmap; exact Or.inl hmap.symm
  · rw [if_neg hxa] at hmap; subst hmap; exact Or.inr hx

theorem mem_dropLeadingDash {s : List Char} {c : Char}
    (h : c ∈ dropLeadingDash s) : c ∈ s := by
  unfold dropLeadingDash at h
  split at h
  · exact List.mem_cons_of_mem _ h
  · exact h

theorem mem_dropTrailingDash {s : List Char} {c : Char}
    (h : c ∈ dropTrailingDash s) : c ∈ s := by
  unfold dropTrailingDash at h
  split at h
  · exact (List.dropLast_sublist s).subset h
  · exact h

theorem mem_trimEdgeDashes {s : List Char} {c : Char}
    (h : c ∈ trimEdgeDashes s) : c ∈ s :=
  mem_dropLeadingDash (mem_dropTrailingDash h)

theorem jsToLowerChar_eq_qmark {c : Char} (h : jsToLowerChar c = '?') : c = '?' := by
  unfold jsToLowerChar at h
  split at h
  all_goals first
    | exact h
    | exact absurd h (by decide)

/-- The query slug pipelines of olx.pt, olx.pl, olx.bg and olx.ua keep no
question mark: the strip step removes it before the run replacements. -/
theorem qmark_not_mem_filtered_pipeline (xs : List Char) :
    '?' ∉ trimEdgeDashes (replaceRuns (fun c => c = '-') '-'
      (replaceRuns isJsSpace '-' (xs.filter isSlugKeep))) := by
  intro h
  have h1 := mem_trimEdgeDashes h
  rcases mem_squashRuns h1 with h2 | h2
  · exact absurd h2 (by decide)
  rcases mem_squashRuns h2 with h3 | h3
  · exact absurd h3 (by decide)
  exact absurd (List.mem_filter.mp h3).2 (by decide)

/-- The olx.ro query slug keeps no question mark either: the strip step runs
first and the diacritic replacements only introduce plain letters. -/
theorem qmark_not_mem_ro_pipeline (xs : List Char) :
    '?' ∉ trimEdgeDashes (replaceRuns (fun c => c = '-') '-'
      (replaceRuns isJsSpace '-'
        (mapChar 'ț' 't' (mapChar 'ș' 's' (mapChar 'î' 'i' (mapChar 'â' 'a'
          (mapChar 'ă' 'a' (xs.filter isSlugKeep)))))))) := by
  intro h
  have h1 := mem_trimEdgeDashes h
  rcases mem_squashRuns h1 with h2 | h2
  · exact absurd h2 (by decide)
  rcases mem_squashRuns h2 with h3 | h3
  · exact absurd h3 (by decide)
  rcases mem_mapChar h3 with h4 | h4
  · exact absurd h4 (by decide)
  rcases mem_mapChar h4 with h5 | h5
  · exact absurd h5 (by decide)
  rcases mem_mapChar h5 with h6 | h6
  · exact absurd h6 (by decide)
  rcases mem_mapChar h6 with h7 | h7
  · exact absurd h7 (by decide)
  rcases mem_mapChar h7 with h8 | h8
  · exact absurd h8 (by decide)
  exact absurd (List.mem_filter.mp h8).2 (by decide)

theorem qmark_not_mem_lower_map {l : String} (hl : '?' ∉ l.toList) :
    '?' ∉ l.toList.map jsToLowerChar := by
  intro h
  obtain ⟨x, hx, hmap⟩ := List.mem_map.mp h
  exact hl (jsToLowerChar_eq_qmark hmap ▸ hx)

/-- The olx.pt, olx.bg and olx.ua location slug keeps no question mark when
the location has none. -/
theorem qmark_not_mem_basic_location (l : String) (hl : '?' ∉ l.toList) :
    '?' ∉ replaceRuns isJsSpace '-' (l.toList.map jsToLowerChar) := by
  intro h
  rcases mem_squashRuns h with h1 | h1
  · exact absurd h1 (by decide)
  · exact qmark_not_mem_lower_map hl h1

/-- The olx.pl location slug keeps no question mark when the location has none. -/
theorem qmark_not_mem_pl_location (l : String) (hl : '?' ∉ l.toList) :
    '?' ∉ mapChar 'ż' 'z' (mapChar 'ź' 'z' (mapChar 'ś' 's' (mapChar 'ó' 'o'
      (mapChar 'ń' 'n' (mapChar 'ł' 'l' (mapChar 'ę' 'e' (mapChar 'ć' 'c'
        (mapChar 'ą' 'a' (replaceRuns isJsSpace '-' (l.toList.map jsToLowerChar)))))))))) := by
  intro h
  rcases mem_mapChar h with h1 | h1; · exact absurd h1 (by decide)
  rcases mem_mapChar h1 with h2 | h2; · exact absurd h2 (by decide)
  rcases mem_mapChar h2 with h3 | h3; · exact absurd h3 (by decide)
  rcases mem_mapChar h3 with h4 | h4; · exact absurd h4 (by decide)
  rcases mem_mapChar h4 with h5 | h5; · exact absurd h5 (by decide)
  rcases mem_mapChar h5 with h6 | h6; · exact absurd h6 (by decide)
  rcases mem_mapChar h6 with h7 | h7; · exact absurd h7 (by decide)
  rcases mem_mapChar h7 with h8 | h8; · exact absurd h8 (by decide)
  rcases mem_mapChar h8 with h9 | h9; · exact absurd h9 (by decide)
  exact qmark_not_mem_basic_location l hl h9

/-- The olx.ro location slug keeps no question mark when the location has none. -/
theorem qmark_not_mem_ro_location (l : String) (hl : '?' ∉ l.toList) :
    '?' ∉ mapChar 'ț' 't' (mapChar 'ș' 's' (mapChar 'î' 'i' (mapChar 'â' 'a'
      (mapChar 'ă' 'a' (replaceRuns isJsSpace '-' (l.toList.map jsToLowerChar)))))) := by
  intro h
  rcases mem_mapChar h with h1 | h1; · exact absurd h1 (by decide)
  rcases mem_mapChar h1 with h2 | h2; · exact absurd h2 (by decide)
  rcases mem_mapChar h2 with h3 | h3; · exact absurd h3 (by decide)
  rcases mem_mapChar h3 with h4 | h4; · exact absurd h4 (by decide)
  rcases mem_mapChar h4 with h5 | h5; · exact absurd h5 (by decide)
  exact qmark_not_mem_basic_location l hl h5

theorem no_qmark_append {s t : String} (hs : '?' ∉ s.toList) (ht : '?' ∉ t.toList) :
    '?' ∉ (s ++ t).toList := by
  intro h
  rcases List.mem_append.mp (by simpa [String.toList] using h) with h1 | h1
  · exact hs h1
  · exact ht h1

theorem parseQueryString_eq_nil {s : String} (h : '?' ∉ s.toList) :
    parseQueryString s = [] := by
  unfold parseQueryString
  have hdrop : (s.toList.takeWhile (fun c => c ≠ '#')).dropWhile (fun c => c ≠ '?') = [] := by
    rw [List.dropWhile_eq_nil_iff]
    intro x hx
    have hxs : x ∈ s.toList := (List.takeWhile_sublist _).subset hx
    simp only [ne_eq, decide_eq_true_eq]
    intro heq
    exact h (heq ▸ hxs)
  rw [hdrop]

theorem qmark_not_mem_ptSearchPath (location query : Option String)
    (hloc : ∀ l, location = some l → '?' ∉ l.toList) :
    '?' ∉ (ptSearchPath location query).toList := by
  unfold ptSearchPath
  by_cases h1 : jsTruthyS location = true
  · rw [if_pos h1]
    rcases location with _ | l
    · exact absurd h1 (by simp [jsTruthyS])
    · have hl := hloc l rfl
      have hLS : '?' ∉ (ptLocationSlug l).toList := qmark_not_mem_basic_location l hl
      by_cases h2 : jsTruthyS query = true
      · rw [if_pos h2]
        exact no_qmark_append (no_qmark_append (no_qmark_append
          (no_qmark_append (by decide) hLS) (by decide))
          (qmark_not_mem_filtered_pipeline ((query.getD "").toList.map jsToLowerChar)))
          (by decide)
      · rw [if_neg h2]
        exact no_qmark_append (no_qmark_append (by decide) hLS) (by decide)
  · rw [if_neg h1]
    by_cases h2 : jsTruthyS query = true
    · rw [if_pos h2]
      exact no_qmark_append (no_qmark_append (by decide)
        (qmark_not_mem_filtered_pipeline ((query.getD "").toList.map jsToLowerChar)))
        (by decide)
    · rw [if_neg h2]
      decide

set_option maxHeartbeats 1000000 in
theorem qmark_not_mem_plSearchPath (location query : Option String)
    (hloc : ∀ l, location = some l → '?' ∉ l.toList) :
    '?' ∉ (plSearchPath location query).toList := by
  unfold plSearchPath
  by_cases h1 : jsTruthyS location = true
  · rw [if_pos h1]
    rcases location with _ | l
    · exact absurd h1 (by simp [jsTruthyS])
    · have hl := hloc l rfl
      have hLS : '?' ∉ (plLocationSlug l).toList := qmark_not_mem_pl_location l hl
      by_cases h2 : jsTruthyS query = true
      · rw [if_pos h2]
        exact no_qmark_append (no_qmark_append (no_qmark_append
          (no_qmark_append (by decide) hLS) (by decide))
          (qmark_not_mem_filtered_pipeline
            (mapChar 'ż' 'z' (mapChar 'ź' 'z' (mapChar 'ś' 's' (mapChar 'ó' 'o'
              (mapChar 'ń' 'n' (mapChar 'ł' 'l' (mapChar 'ę' 'e' (mapChar 'ć' 'c'
                (mapChar 'ą' 'a' ((query.getD "").toList.map jsToLowerChar))))))))))))
          (by decide)
      · rw [if_neg h2]
        exact no_qmark_append (no_qmark_append (by decide) hLS) (by decide)
  · rw [if_neg h1]
    by_cases h2 : jsTruthyS query = true
    · rw [if_pos h2]
      exact no_qmark_append (no_qmark_append (by decide)
        (qmark_not_mem_filtered_pipeline
          (mapChar 'ż' 'z' (mapChar 'ź' 'z' (mapChar 'ś' 's' (mapChar 'ó' 'o'
            (mapChar 'ń' 'n' (mapChar 'ł' 'l' (mapChar 'ę' 'e' (mapChar 'ć' 'c'
              (mapChar 'ą' 'a' ((query.getD "").toList.map jsToLowerChar))))))))))))
        (by decide)
    · rw [if_neg h2]
      decide

theorem qmark_not_mem_bgSearchPath (location query : Option String)
    (hloc : ∀ l, location = some l → '?' ∉ l.toList) :
    '?' ∉ (bgSearchPath location query).toList := by
  unfold bgSearchPath
  by_cases h1 : jsTruthyS location = true
  · rw [if_pos h1]
    rcases location with _ | l
    · exact absurd h1 (by simp [jsTruthyS])
    · have hl := hloc l rfl
      have hLS : '?' ∉ (bgLocationSlug l).toList := qmark_not_mem_basic_location l hl
      by_cases h2 : jsTruthyS query = true
      · rw [if_pos h2]
        exact no_qmark_append (no_qmark_append (no_qmark_append
          (no_qmark_append (by decide) hLS) (by decide))
          (qmark_not_mem_filtered_pipeline ((query.getD "").toList.map jsToLowerChar)))
          (by decide)
      · rw [if_neg h2]
        exact no_qmark_append (no_qmark_append (by decide) hLS) (by decide)
  · rw [if_neg h1]
    by_cases h2 : jsTruthyS query = true
    · rw [if_pos h2]
      exact no_qmark_append (no_qmark_append (by decide)
        (qmark_not_mem_filtered_pipeline ((query.getD "").toList.map jsToLowerChar)))
        (by decide)
    · rw [if_neg h2]
      decide

set_option maxHeartbeats 1000000 in
theorem qmark_not_mem_roSearchPath (location query : Option String)
    (hloc : ∀ l, location = some l → '?' ∉ l.toList) :
    '?' ∉ (roSearchPath location query).toList := by
  unfold roSearchPath
  by_cases h1 : jsTruthyS location = true
  · rw [if_pos h1]
    rcases location with _ | l
    · exact absurd h1 (by simp [jsTruthyS])
    · have hl := hloc l rfl
      have hLS : '?' ∉ (roLocationSlug l).toList := qmark_not_mem_ro_location l hl
      by_cases h2 : jsTruthyS query = true
      · rw [if_pos h2]
        exact no_qmark_append (no_qmark_append (no_qmark_append
          (no_qmark_append (by decide) hLS) (by decide))
          (qmark_not_mem_ro_pipeline ((query.getD "").toList.map jsToLowerChar)))
          (by decide)
      · rw [if_neg h2]
        exact no_qmark_append (no_qmark_append (by decide) hLS) (by decide)
  · rw [if_neg h1]
    by_cases h2 : jsTruthyS query = true
    · rw [if_pos h2]
      exact no_qmark_append (no_qmark_append (by decide)
        (qmark_not_mem_ro_pipeline ((query.getD "").toList.map jsToLowerChar)))
        (by decide)
    · rw [if_neg h2]
      decide

theorem qmark_not_mem_uaSearchPath (location query : Option String)
    (hloc : ∀ l, location = some l → '?' ∉ l.toList) :
    '?' ∉ (uaSearchPath location query).toList := by
  unfold uaSearchPath
  by_cases h1 : jsTruthyS location = true
  · rw [if_pos h1]
    rcases location with _ | l
    · exact absurd h1 (by simp [jsTruthyS])
    · have hl := hloc l rfl
      have hLS : '?' ∉ (uaLocationSlug l).toList := qmark_not_mem_basic_location l hl
      by_cases h2 : jsTruthyS query = true
      · rw [if_pos h2]
        exact no_qmark_append (no_qmark_append (no_qmark_append
          (no_qmark_append (by decide) hLS) (by decide))
          (qmark_not_mem_filtered_pipeline ((query.getD "").toList.map jsToLowerChar)))
          (by decide)
      · rw [if_neg h2]
        exact no_qmark_append (no_qmark_append (by decide) hLS) (by decide)
  · rw [if_neg h1]
    by_cases h2 : jsTruthyS query = true
    · rw [if_pos h2]
      exact no_qmark_append (no_qmark_append (by decide)
        (qmark_not_mem_filtered_pipeline ((query.getD "").toList.map jsToLowerChar)))
        (by decide)
    · rw [if_neg h2]
      decide

theorem hasName_setParam (ps : List (String × String)) (n v m : String) :
    ((setParam ps n v).any fun p => p.1 = m) = (decide (m = n) || ps.any fun p => p.1 = m) := by
  unfold setParam
  by_cases h : (ps.any fun p => p.1 = n) = true
  · rw [if_pos h]
    by_cases hm : m = n
    · subst hm
      simp only [decide_True, Bool.true_or]
      rw [List.any_map]
      obtain ⟨p, hp, hpn⟩ := List.any_eq_true.mp h
      apply List.any_eq_true.mpr
      exact ⟨p, hp, by simp_all⟩
    · simp only [hm, decide_False, Bool.false_or]
      rw [List.any_map]
      apply Bool.eq_iff_iff.mpr
      simp only [List.any_eq_true, Function.comp_apply, decide_eq_true_eq]
      constructor
      · rintro ⟨p, hp, hpm⟩
        refine ⟨p, hp, ?_⟩
        by_cases hpn : p.1 = n
        · rw [if_pos hpn] at hpm; exact absurd hpm.symm hm
        · rwa [if_neg hpn] at hpm
      · rintro ⟨p, hp, hpm⟩
        refine ⟨p, hp, ?_⟩
        rw [if_neg (by rw [hpm]; exact fun hh => hm (by rw [← hh]))]
        exact hpm
  · rw [if_neg h]
    simp [List.any_append, eq_comm, Bool.or_comm]

set_option maxHeartbeats 2000000 in
theorem hasParam_buildSearchUrl_aux (cfg : DomainConfig) (f : SearchFilters)
    (hpath : parseQueryString (cfg.urlPatterns.searchPath f.location f.query) = [])
    (hc : cfg.urlPatterns.categoryParam = "c")
    (hmin : cfg.urlPatterns.priceMin = "search[filter_float_price:from]")
    (hmax : cfg.urlPatterns.priceMax = "search[filter_float_price:to]")
    (hpage : cfg.urlPatterns.pageParam = "page")
    (hsortfn : cfg.urlPatterns.sortParams = fun sb =>
      match sb with
      | SortBy.date => some "created_at:desc"
      | SortBy.priceAsc => some "filter_float_price:asc"
      | SortBy.priceDesc => some "filter_float_price:desc"
      | SortBy.relevance => none) :
    hasParam (buildSearchUrl cfg f) "c" = jsTruthyS f.category
      ∧ hasParam (buildSearchUrl cfg f) "search[filter_float_price:from]"
          = jsTruthyN f.minPrice
      ∧ hasParam (buildSearchUrl cfg f) "search[filter_float_price:to]"
          = jsTruthyN f.maxPrice
      ∧ hasParam (buildSearchUrl cfg f) "search[order]" =
          (match f.sortBy with
           | some sb => decide (sb ≠ SortBy.relevance)
           | none => false)
      ∧ hasParam (buildSearchUrl cfg f) "page" =
          (match f.page with
           | some p => decide (p ≠ 0) && decide (1 < p)
           | none => false) := by
  simp only [buildSearchUrl, hasParam, hpath, hc, hmin, hmax, hpage, hsortfn]
  rcases hso : f.sortBy with _ | sb
  case none =>
    rcases hpg : f.page with _ | p <;>
      try (by_cases h0 : p = 0 <;> by_cases h1 : 1 < p)
    all_goals cases hcat : jsTruthyS f.category <;>
      cases hminb : jsTruthyN f.minPrice <;>
      cases hmaxb : jsTruthyN f.maxPrice <;>
      simp_all [hasName_setParam, ← not_le]
  case some =>
    cases sb <;>
      (rcases hpg : f.page with _ | p <;>
        try (by_cases h0 : p = 0 <;> by_cases h1 : 1 < p)) <;>
      (cases hcat : jsTruthyS f.category <;>
        cases hminb : jsTruthyN f.minPrice <;>
        cases hmaxb : jsTruthyN f.maxPrice <;>
        simp_all [hasName_setParam, ← not_le])

/-- C1 (amended): for every domain and every schema-valid SearchFilters whose
location contains no question mark, the built URL carries the category, min
price, max price, sort and page parameters iff the corresponding field is
truthy and non-default: category set and non-empty, minPrice and maxPrice set
and non-zero, sortBy other than relevance, page greater than 1. -/
theorem buildSearchUrl_params (d : OlxDomain) (f : SearchFilters)
    (hvalid : validSearchFilters f = true)
    (hloc : ∀ l, f.location = some l → '?' ∉ l.toList) :
    hasParam (buildSearchUrl (getDomainConfig d) f)
        (getDomainConfig d).urlPatterns.categoryParam = jsTruthyS f.category
      ∧ hasParam (buildSearchUrl (getDomainConfig d) f)
          (getDomainConfig d).urlPatterns.priceMin = jsTruthyN f.minPrice
      ∧ hasParam (buildSearchUrl (getDomainConfig d) f)
          (getDomainConfig d).urlPatterns.priceMax = jsTruthyN f.maxPrice
      ∧ hasParam (buildSearchUrl (getDomainConfig d) f) "search[order]" =
          (match f.sortBy with
           | some sb => decide (sb ≠ SortBy.relevance)
           | none => false)
      ∧ hasParam (buildSearchUrl (getDomainConfig d) f)
          (getDomainConfig d).urlPatterns.pageParam =
          (match f.page with
           | some p => decide (1 < p)
           | none => false) := by
  have hpath : parseQueryString
      ((getDomainConfig d).urlPatterns.searchPath f.location f.query) = [] := by
    cases d
    · exact parseQueryString_eq_nil (qmark_not_mem_ptSearchPath f.location f.query hloc)
    · exact parseQueryString_eq_nil (qmark_not_mem_plSearchPath f.location f.query hloc)
    · exact parseQueryString_eq_nil (qmark_not_mem_bgSearchPath f.location f.query hloc)
    · exact parseQueryString_eq_nil (qmark_not_mem_roSearchPath f.location f.query hloc)
    · exact parseQueryString_eq_nil (qmark_not_mem_uaSearchPath f.location f.query hloc)
  have aux := hasParam_buildSearchUrl_aux (getDomainConfig d) f hpath
    (by cases d <;> rfl) (by cases d <;> rfl) (by cases d <;> rfl) (by cases d <;> rfl)
    (by cases d <;> (funext sb; cases sb <;> rfl))
  have hpagecollapse :
      (match f.page with
       | some p => decide (p ≠ 0) && decide (1 < p)
       | none => false) =
      (match f.page with
       | some p => decide (1 < p)
       | none => false) := by
    rcases f.page with _ | p
    · rfl
    · by_cases h1 : 1 < p
      · have h0 : p ≠ 0 := by
          intro h; rw [h] at h1; norm_num at h1
        simp [h0, h1]
      · simp [h1]
  have hcname : (getDomainConfig d).urlPatterns.categoryParam = "c" := by cases d <;> rfl
  have hminname : (getDomainConfig d).urlPatterns.priceMin =
      "search[filter_float_price:from]" := by cases d <;> rfl
  have hmaxname : (getDomainConfig d).urlPatterns.priceMax =
      "search[filter_float_price:to]" := by cases d <;> rfl
  have hpagename : (getDomainConfig d).urlPatterns.pageParam = "page" := by cases d <;> rfl
  rw [hcname, hminname, hmaxname, hpagename]
  exact ⟨aux.1, aux.2.1, aux.2.2.1, aux.2.2.2.1, by rw [aux.2.2.2.2, hpagecollapse]⟩

/-- A schema-valid filter with minPrice set to 0, used against C1 as stated. -/
def c1Filters : SearchFilters :=
  { domain := OlxDomain.pt
    query := some "tv"
    minPrice := some 0
    page := some 1
    limit := some 20
    sortBy := some SortBy.relevance }

/-- Counterexample to C1 as stated: minPrice equal to 0 is admitted by the
validated schema and is set, yet the built URL carries no min-price parameter,
because the source guards the parameter with JavaScript truthiness. -/
theorem buildSearchUrl_minPrice_zero_counterexample :
    validSearchFilters c1Filters = true
      ∧ c1Filters.minPrice = some 0
      ∧ hasParam (buildSearchUrl olxPtConfig c1Filters)
          olxPtConfig.urlPatterns.priceMin = false := by
  refine ⟨by decide, rfl, by decide⟩

/-- A schema-valid filter exercising every truthy branch of C1 amended. -/
def c1WitnessFilters : SearchFilters :=
  { domain := OlxDomain.pt
    query := some "tv"
    location := some "Lisboa"
    minPrice := some 5
    maxPrice := some 0
    page := some 3
    limit := some 20
    sortBy := some SortBy.date }

/-- Witness for buildSearchUrl_params at concrete filters: min price 5 is
carried, max price 0 is not, the sort and page parameters are carried, the
category parameter is not. -/
theorem buildSearchUrl_params_witness :
    hasParam (buildSearchUrl (getDomainConfig OlxDomain.pt) c1WitnessFilters)
        (getDomainConfig OlxDomain.pt).urlPatterns.priceMin = true
      ∧ hasParam (buildSearchUrl (getDomainConfig OlxDomain.pt) c1WitnessFilters)
          (getDomainConfig OlxDomain.pt).urlPatterns.priceMax = false
      ∧ hasParam (buildSearchUrl (getDomainConfig OlxDomain.pt) c1WitnessFilters)
          "search[order]" = true
      ∧ hasParam (buildSearchUrl (getDomainConfig OlxDomain.pt) c1WitnessFilters)
          (getDomainConfig OlxDomain.pt).urlPatterns.pageParam = true
      ∧ hasParam (buildSearchUrl (getDomainConfig OlxDomain.pt) c1WitnessFilters)
          (getDomainConfig OlxDomain.pt).urlPatterns.categoryParam = false := by
  have h := buildSearchUrl_params OlxDomain.pt c1WitnessFilters (by decide)
    (by intro l hl; cases hl; decide)
  refine ⟨?_, ?_, ?_, ?_, ?_⟩
  · rw [h.2.1]; decide
  · rw [h.2.2.1]; decide
  · rw [h.2.2.2.1]; decide
  · rw [h.2.2.2.2]; decide
  · rw [h.1]; decide

/-- The SellerInfo record (name and verified are the two fields the scraper
populates). -/
structure SellerInfo where
  name : Option String
  verified : Bool
deriving DecidableEq

/-- The Listing record of src/core/types.ts, restricted to the fields the
scraper populates. -/
structure Listing where
  id : String
  title : String
  price : Option String := none
  location : Option String := none
  category : Option String := none
  imageUrl : Option String := none
  url : String
  description : Option String := none
  seller : Option SellerInfo := none
deriving DecidableEq

/-- The SearchResult record of src/core/types.ts. -/
structure SearchResult where
  listings : List Listing
  totalCount : Nat
  currentPage : Rat
  totalPages : Nat
  hasNextPage : Bool
deriving DecidableEq

/-- One result-card element, recorded as the values the selector queries
inside extractListings produce after their .catch(() => empty) handlers:
each field is the trimmed text (or attribute) of the sub-element, or the
empty string when the sub-element is absent or the query fails. -/
structure Card where
  titleText : String
  priceText : String
  locationText : String
  imageText : String
  href : String
deriving DecidableEq

/-- The idiom value-or-undefined: an empty extracted string becomes an absent
field. -/
def optOfText (s : String) : Option String :=
  if s = "" then none else some s

/-- String prefix test over the character lists. -/
def strStartsWith (p s : String) : Bool :=
  List.isPrefixOf p.toList s.toList

/-- Model of new URL(href, base).toString() for the href shapes the scraper
resolves: an absolute http or https URL is kept, anything else is appended to
the base origin (the configured baseUrl carries no path, query or fragment). -/
def resolveUrl (base href : String) : String :=
  if strStartsWith "http://" href || strStartsWith "https://" href then href
  else if strStartsWith "/" href then base ++ href
  else base ++ "/" ++ href

/-- The per-scraper URL cache, a Map from listing id to URL kept as an
association list in insertion order. -/
abbrev Cache : Type := List (String × String)

/-- Map.prototype.set: overwrite the existing entry or append a new one. -/
def cacheSet (c : Cache) (k v : String) : Cache :=
  if (List.any c fun p => p.1 = k) then
    List.map (fun p => if p.1 = k then (k, v) else p) c
  else c ++ [(k, v)]

/-- Map.prototype.get. -/
def cacheGet (c : Cache) (k : String) : Option String :=
  Option.map Prod.snd (List.find? (fun p => p.1 = k) c)

/-- A card is kept iff both its title and its link are non-empty
(the source skips a card when either is missing). -/
def qualifies (c : Card) : Bool :=
  !(c.titleText = "" || c.href = "")

/-- The Listing assembled from one kept card inside
BaseOlxScraper.extractListings; extractId is the scraper's locale-specific
extractListingId applied to the relative href. -/
def cardToListing (extractId : String → String) (base : String) (c : Card) : Listing :=
  { id := extractId c.href
    title := c.titleText
    price := optOfText c.priceText
    location := optOfText c.locationText
    imageUrl := optOfText c.imageText
    url := resolveUrl base c.href }

/-- BaseOlxScraper.extractListings: walk the result cards in page order, skip
any card without title or link, resolve the link against the base URL, derive
the id, record the id-to-URL pair in the cache, and append the Listing. -/
def extractListings (extractId : String → String) (base : String) :
    List Card → Cache → List Listing × Cache
  | [], cache => ([], cache)
  | card :: rest, cache =>
    if card.titleText = "" || card.href = "" then
      extractListings extractId base rest cache
    else
      let url := resolveUrl base card.href
      let id := extractId card.href
      let cache2 := cacheSet cache id url
      let next := extractListings extractId base rest cache2
      (cardToListing extractId base card :: next.1, next.2)

/-- The rendered search page as the scraper observes it: the result cards,
the total-count element text (none when absent), the presence of a next-page
element, and an optional navigation failure for page.goto. -/
structure SearchPage where
  cards : List Card
  totalCountText : Option String
  nextPagePresent : Bool
  gotoError : Option JSVal := none

/-- The current page reported by extractPaginationInfo, filters.page or 1
under JavaScript truthiness. -/
def jsPageOr1 (page : Option Rat) : Rat :=
  match page with
  | some p => if p = 0 then 1 else p
  | none => 1

/-- BaseOlxScraper.performSearch inside withPage: the pre-navigation abort
check of withPage, the navigation, the post-wait abort check, then listing
extraction and pagination. The wait-for-results race is absorbed into the
observed page (a timeout just proceeds). Returns the outcome together with
the cache left behind. -/
def performSearch (extractId : String → String) (cfg : DomainConfig)
    (f : SearchFilters) (env : SearchPage) (abortedStart abortedAfterWait : Bool)
    (cache : Cache) : JsOutcome SearchResult × Cache :=
  if abortedStart then (.thrown (JSVal.error "Operation cancelled"), cache)
  else
    let _searchUrl := buildSearchUrl cfg f
    match env.gotoError with
    | some e => (.thrown e, cache)
    | none =>
      if abortedAfterWait then (.thrown (JSVal.error "Operation cancelled"), cache)
      else
        let extracted := extractListings extractId cfg.baseUrl env.cards cache
        let pagination :=
          extractPaginationInfo env.totalCountText env.nextPagePresent (jsPageOr1 f.page)
        (.ok { listings := extracted.1
               totalCount := pagination.totalCount
               currentPage := pagination.currentPage
               totalPages := pagination.totalPages
               hasNextPage := pagination.hasNextPage }, extracted.2)

/-- The rendered detail page as the scraper observes it: each text is the
post-catch result of the corresponding selector query (empty when the element
is absent), plus whether the verified badge element is present, and an
optional navigation failure for page.goto. -/
structure DetailPage where
  titleText : String
  priceText : String
  descriptionText : String
  locationText : String
  sellerNameText : String
  sellerVerified : Bool
  gotoError : Option JSVal := none

/-- BaseOlxScraper.extractSellerInfo: optional name, verified badge presence;
the seller object is returned only when name or verified is truthy. -/
def extractSellerInfo (page : DetailPage) : Option SellerInfo :=
  let name := optOfText page.sellerNameText
  if name.isSome || page.sellerVerified then
    some { name := name, verified := page.sellerVerified }
  else none

/-- The not-found error message thrown by performGetListingDetails. -/
def notFoundMsg (listingId : String) : String :=
  "Listing with ID " ++ listingId ++ " not found. Try searching first to cache the URL."

/-- BaseOlxScraper.performGetListingDetails inside withPage, instrumented with
whether findListingUrl was invoked and whether the detail navigation was
performed. findResult models what the locale-specific findListingUrl would
return (it never throws; empty string means not found). The cache is
consulted first; only on a miss is findListingUrl invoked; an empty resolved
URL throws the not-found error before any detail navigation; otherwise the
page is navigated, the abort flag is checked, and the per-field extractions
(each tolerant of absence) build the Listing. -/
def performGetListingDetails (cache : Cache) (findResult : String)
    (page : DetailPage) (abortedStart abortedAfterNav : Bool)
    (listingId : String) : JsOutcome Listing × Bool × Bool :=
  if abortedStart then (.thrown (JSVal.error "Operation cancelled"), false, false)
  else
    let cached := cacheGet cache listingId
    let findCalled := cached.isNone
    let finalUrl := match cached with | some u => u | none => findResult
    if finalUrl = "" then
      (.thrown (JSVal.error (notFoundMsg listingId)), findCalled, false)
    else
      match page.gotoError with
      | some e => (.thrown e, findCalled, true)
      | none =>
        if abortedAfterNav then
          (.thrown (JSVal.error "Operation cancelled"), findCalled, true)
        else
          (.ok { id := listingId
                 title := page.titleText
                 price := optOfText page.priceText
                 location := optOfText page.locationText
                 url := finalUrl
                 description := optOfText page.descriptionText
                 seller := extractSellerInfo page }, findCalled, true)

/-- BaseOlxScraper.getListingDetails: performGetListingDetails run under
retryOperation with the configured 3 attempts (each attempt observes the same
page in this model), the outcome converted to a Result by the try/catch. -/
def getListingDetails (cache : Cache) (findResult : String) (page : DetailPage)
    (abortedStart abortedAfterNav : Bool) (listingId : String) : Result Listing :=
  match (retryOperation
      (fun _ => (performGetListingDetails cache findResult page
        abortedStart abortedAfterNav listingId).1) scraperConfigRetries).1 with
  | .ok v => createResult v
  | .thrown e => createError (toError e)

theorem extractListings_listings (extractId : String → String) (base : String) :
    ∀ (cards : List Card) (cache : Cache),
      (extractListings extractId base cards cache).1 =
        (cards.filter qualifies).map (cardToListing extractId base) := by
  intro cards
  induction cards with
  | nil => intro cache; rfl
  | cons c rest ih =>
    intro cache
    rw [extractListings]
    by_cases h : (c.titleText = "" || c.href = "") = true
    · rw [if_pos h, ih]
      simp [qualifies, h, List.filter_cons]
    · rw [if_neg h]
      simp [List.filter_cons, qualifies, h, ih]

/-- C9: the validated limit is never consulted after validation: the search
pipeline returns one Listing per result card that has both a title and a
link, in page order, whatever the limit is, so a SearchResult may hold more
or fewer listings than the requested limit. -/
theorem scrape_ignores_limit (extractId : String → String) (cfg : DomainConfig)
    (f : SearchFilters) (env : SearchPage) (a0 a1 : Bool) (cache : Cache)
    (l1 l2 : Option Rat) :
    performSearch extractId cfg { f with limit := l1 } env a0 a1 cache
        = performSearch extractId cfg { f with limit := l2 } env a0 a1 cache
      ∧ (extractListings extractId cfg.baseUrl env.cards cache).1
          = (env.cards.filter qualifies).map (cardToListing extractId cfg.baseUrl)
      ∧ (a0 = false → env.gotoError = none → a1 = false →
          ∃ res, (performSearch extractId cfg f env a0 a1 cache).1 = .ok res
            ∧ res.listings
                = (env.cards.filter qualifies).map (cardToListing extractId cfg.baseUrl)) := by
  refine ⟨rfl, extractListings_listings extractId cfg.baseUrl env.cards cache, ?_⟩
  rintro rfl hg rfl
  refine ⟨{ listings := (extractListings extractId cfg.baseUrl env.cards cache).1
            totalCount := (extractPaginationInfo env.totalCountText env.nextPagePresent
              (jsPageOr1 f.page)).totalCount
            currentPage := (extractPaginationInfo env.totalCountText env.nextPagePresent
              (jsPageOr1 f.page)).currentPage
            totalPages := (extractPaginationInfo env.totalCountText env.nextPagePresent
              (jsPageOr1 f.page)).totalPages
            hasNextPage := (extractPaginationInfo env.totalCountText env.nextPagePresent
              (jsPageOr1 f.page)).hasNextPage },
    ?_, extractListings_listings extractId cfg.baseUrl env.cards cache⟩
  simp [performSearch, hg]

/-- The three cards of the C9 witness; the second has no title and is
dropped. -/
def c9Cards : List Card :=
  [{ titleText := "Tv one", priceText := "", locationText := "", imageText := "",
     href := "/d/ad-one-ID1a.html" },
   { titleText := "", priceText := "", locationText := "", imageText := "",
     href := "/d/ad-two-ID2b.html" },
   { titleText := "Tv three", priceText := "9", locationText := "Lisboa",
     imageText := "", href := "/d/ad-three-ID3c.html" }]

/-- The search page of the C9 witness. -/
def c9Env : SearchPage :=
  { cards := c9Cards, totalCountText := some "2 ads", nextPagePresent := false }

/-- The filters of the C9 witness, with limit 1. -/
def c9Filters : SearchFilters :=
  { domain := OlxDomain.pt, query := some "tv", page := some 1,
    limit := some 1, sortBy := some SortBy.relevance }

/-- Witness for scrape_ignores_limit: limit 1 and limit 50 give identical
runs, and the extraction yields 2 listings, exceeding the requested limit 1. -/
theorem scrape_ignores_limit_witness :
    performSearch (fun s => s) olxPtConfig { c9Filters with limit := some 1 }
        c9Env false false []
        = performSearch (fun s => s) olxPtConfig { c9Filters with limit := some 50 }
            c9Env false false []
      ∧ (extractListings (fun s => s) olxPtConfig.baseUrl c9Env.cards []).1.length = 2 := by
  have h := scrape_ignores_limit (fun s => s) olxPtConfig c9Filters c9Env false false []
    (some 1) (some 50)
  refine ⟨h.1, ?_⟩
  rw [h.2.1]
  decide

theorem find_map_set (k v : String) :
    ∀ c : List (String × String), (List.any c fun p => p.1 = k) = true →
      List.find? (fun p => p.1 = k) (List.map (fun p => if p.1 = k then (k, v) else p) c)
        = some (k, v) := by
  intro c
  induction c with
  | nil => intro h; simp at h
  | cons p c ih =>
    intro h
    by_cases hp : p.1 = k
    · simp [List.find?, hp]
    · rw [List.map_cons, List.find?]
      rw [if_neg hp]
      simp only [hp, decide_False]
      exact ih (by simpa [hp] using h)

theorem cacheGet_cacheSet_self (c : Cache) (k v : String) :
    cacheGet (cacheSet c k v) k = some v := by
  unfold cacheSet cacheGet
  by_cases h : (List.any c fun p => p.1 = k) = true
  · rw [if_pos h, find_map_set k v c h]
    rfl
  · rw [if_neg h]
    have hnone : List.find? (fun p => decide (p.1 = k)) c = none := by
      rw [List.find?_eq_none]
      intro p hp
      simp only [decide_eq_true_eq]
      intro hk
      exact h (List.any_eq_true.mpr ⟨p, hp, by simp [hk]⟩)
    rw [List.find?_append, hnone]
    simp [List.find?]

theorem find_map_set_ne (k v k2 : String) (h : k2 ≠ k) :
    ∀ c : List (String × String),
      List.find? (fun p => p.1 = k2) (List.map (fun p => if p.1 = k then (k, v) else p) c)
        = List.find? (fun p => p.1 = k2) c := by
  have hkk2 : (decide (k = k2)) = false := by
    simp only [decide_eq_false_iff_not]
    exact fun hh => h hh.symm
  intro c
  induction c with
  | nil => rfl
  | cons p c ih =>
    simp only [List.map_cons]
    by_cases hp : p.1 = k
    · rw [if_pos hp]
      have h2 : (decide (p.1 = k2)) = false := by rw [hp]; exact hkk2
      rw [List.find?_cons_of_neg _ (by simpa using hkk2),
        List.find?_cons_of_neg _ (by simpa using h2)]
      exact ih
    · rw [if_neg hp]
      by_cases hd : p.1 = k2
      · rw [List.find?_cons_of_pos _ (by simpa using hd),
          List.find?_cons_of_pos _ (by simpa using hd)]
      · rw [List.find?_cons_of_neg _ (by simpa using hd),
          List.find?_cons_of_neg _ (by simpa using hd)]
        exact ih

theorem cacheGet_cacheSet_ne (c : Cache) (k v k2 : String) (h : k2 ≠ k) :
    cacheGet (cacheSet c k v) k2 = cacheGet c k2 := by
  unfold cacheSet cacheGet
  by_cases hany : (List.any c fun p => p.1 = k) = true
  · rw [if_pos hany]
    rw [find_map_set_ne k v k2 h c]
  · rw [if_neg hany, List.find?_append]
    have h1 : List.find? (fun p => decide (p.1 = k2)) [(k, v)] = none := by
      have hkk2 : (decide (k = k2)) = false := by
        simp only [decide_eq_false_iff_not]
        exact fun hh => h hh.symm
      simp [List.find?, hkk2]
    rw [h1]
    cases List.find? (fun p => decide (p.1 = k2)) c <;> rfl

theorem resolveUrl_ne_empty (base href : String) (h : href ≠ "") :
    resolveUrl base href ≠ "" := by
  unfold resolveUrl
  split_ifs with h1 h2
  · exact h
  · intro he
    rw [String.ext_iff, String.data_append] at he
    rcases List.append_eq_nil.mp he with ⟨_, hr⟩
    exact h (String.ext hr)
  · intro he
    rw [String.ext_iff, String.data_append, String.data_append] at he
    rcases List.append_eq_nil.mp he with ⟨hl, hr⟩
    rcases List.append_eq_nil.mp hl with ⟨_, hmid⟩
    simp at hmid

theorem extractListings_cache_preserve (extractId : String → String) (base : String) :
    ∀ (cards : List Card) (cache : Cache) (k u : String),
      cacheGet cache k = some u → u ≠ "" →
      ∃ u2, cacheGet (extractListings extractId base cards cache).2 k = some u2
        ∧ u2 ≠ "" := by
  intro cards
  induction cards with
  | nil => intro cache k u hk hu; exact ⟨u, hk, hu⟩
  | cons c rest ih =>
    intro cache k u hk hu
    rw [extractListings]
    by_cases h : (c.titleText = "" || c.href = "") = true
    · rw [if_pos h]
      exact ih cache k u hk hu
    · rw [if_neg h]
      have hhref : c.href ≠ "" := by
        intro hh
        exact h (by simp [hh])
      by_cases hkid : k = extractId c.href
      · subst hkid
        exact ih (cacheSet cache (extractId c.href) (resolveUrl base c.href))
          (extractId c.href) (resolveUrl base c.href)
          (cacheGet_cacheSet_self cache (extractId c.href) (resolveUrl base c.href))
          (resolveUrl_ne_empty base c.href hhref)
      · refine ih (cacheSet cache (extractId c.href) (resolveUrl base c.href)) k u ?_ hu
        rw [cacheGet_cacheSet_ne cache (extractId c.href) (resolveUrl base c.href) k hkid]
        exact hk

theorem extractListings_cache_mem (extractId : String → String) (base : String) :
    ∀ (cards : List Card) (cache : Cache),
      ∀ l ∈ (extractListings extractId base cards cache).1,
        ∃ u, cacheGet (extractListings extractId base cards cache).2 l.id = some u
          ∧ u ≠ "" := by
  intro cards
  induction cards with
  | nil => intro cache l hl; simp [extractListings] at hl
  | cons c rest ih =>
    intro cache l hl
    rw [extractListings] at hl ⊢
    by_cases h : (c.titleText = "" || c.href = "") = true
    · rw [if_pos h] at hl ⊢
      exact ih cache l hl
    · rw [if_neg h] at hl ⊢
      have hhref : c.href ≠ "" := by
        intro hh
        exact h (by simp [hh])
      simp only [List.mem_cons] at hl
      rcases hl with rfl | hl

      · exact extractListings_cache_preserve extractId base rest
          (cacheSet cache (extractId c.href) (resolveUrl base c.href))
          (extractId c.href) (resolveUrl base c.href)
          (cacheGet_cacheSet_self cache (extractId c.href) (resolveUrl base c.href))
          (resolveUrl_ne_empty base c.href hhref)
      · exact ih (cacheSet cache (extractId c.href) (resolveUrl base c.href)) l hl

theorem performGetListingDetails_findCalled (cache : Cache) (findResult : String)
    (page : DetailPage) (a1 : Bool) (listingId : String) :
    (performGetListingDetails cache findResult page false a1 listingId).2.1
      = (cacheGet cache listingId).isNone := by
  unfold performGetListingDetails
  simp only [Bool.false_eq_true, if_false]
  split
  · rfl
  · split
    · rfl
    · split <;> rfl

theorem retryOperation_const_thrown {α : Type} (e : JSVal) :
    (retryOperation (fun _ : Nat => (JsOutcome.thrown e : JsOutcome α)) 3).1
      = JsOutcome.thrown (toError e) := rfl

theorem retryOperation_const_ok {α : Type} (v : α) :
    (retryOperation (fun _ : Nat => (JsOutcome.ok v : JsOutcome α)) 3).1
      = JsOutcome.ok v := rfl

/-- C5: getListingDetails resolves the target URL by first consulting the
per-scraper URL cache by listing id (after a scrape that surfaced that id the
cache holds a non-empty URL for it, so findListingUrl is not invoked); only a
cache miss invokes findListingUrl; and an empty resolved URL makes the
attempt throw — and the operation return a failure Result — with the message
that the listing was not found and that searching first caches the URL, with
no detail-page navigation performed. -/
theorem getListingDetails_url_resolution (extractId : String → String)
    (base : String) (cards : List Card) (c0 : Cache) (findResult : String)
    (page : DetailPage) (a1 : Bool) (listingId : String) :
    (∀ l ∈ (extractListings extractId base cards c0).1,
        (performGetListingDetails (extractListings extractId base cards c0).2
          findResult page false a1 l.id).2.1 = false)
      ∧ (∀ cache : Cache, cacheGet cache listingId = none →
          (performGetListingDetails cache findResult page false a1 listingId).2.1 = true)
      ∧ (∀ cache : Cache, cacheGet cache listingId = none → findResult = "" →
          (performGetListingDetails cache findResult page false a1 listingId).1
              = JsOutcome.thrown (JSVal.error (notFoundMsg listingId))
            ∧ (performGetListingDetails cache findResult page false a1 listingId).2.2
              = false
            ∧ getListingDetails cache findResult page false a1 listingId
              = Result.failure (JSVal.error (notFoundMsg listingId))) := by
  refine ⟨?_, ?_, ?_⟩
  · intro l hl
    obtain ⟨u, hu, _⟩ := extractListings_cache_mem extractId base cards c0 l hl
    rw [performGetListingDetails_findCalled]
    simp [hu]
  · intro cache hnone
    rw [performGetListingDetails_findCalled]
    simp [hnone]
  · intro cache hnone hfr
    subst hfr
    have hperf : performGetListingDetails cache "" page false a1 listingId
        = (JsOutcome.thrown (JSVal.error (notFoundMsg listingId)),
            (cacheGet cache listingId).isNone, false) := by
      unfold performGetListingDetails
      simp [hnone]
    refine ⟨by rw [hperf], by rw [hperf], ?_⟩
    unfold getListingDetails
    simp only [hperf, scraperConfigRetries]
    rw [retryOperation_const_thrown]
    rfl

/-- The cards of the C5 witness. -/
def c5Cards : List Card :=
  [{ titleText := "Tv", priceText := "", locationText := "", imageText := "",
     href := "/d/tv-IDxY7.html" }]

/-- An all-empty detail page: every selector query failed or matched nothing. -/
def emptyDetailPage : DetailPage :=
  { titleText := ""
    priceText := ""
    descriptionText := ""
    locationText := ""
    sellerNameText := ""
    sellerVerified := false }

/-- Witness for getListingDetails_url_resolution: after a scrape that
surfaced id xY7, the lookup does not call findListingUrl; with an empty
cache and an empty findListingUrl result, the call fails with the not-found
message. -/
theorem getListingDetails_url_resolution_witness :
    (performGetListingDetails
        (extractListings (fun _ => "xY7") "https://www.olx.pt" c5Cards []).2
        "" emptyDetailPage false false "xY7").2.1 = false
      ∧ getListingDetails [] "" emptyDetailPage false false "xY7"
        = Result.failure (JSVal.error
            "Listing with ID xY7 not found. Try searching first to cache the URL.") := by
  have h := getListingDetails_url_resolution (fun _ => "xY7") "https://www.olx.pt"
    c5Cards [] "" emptyDetailPage false "xY7"
  have hlist : (extractListings (fun _ => "xY7") "https://www.olx.pt" c5Cards []).1
      = [{ id := "xY7", title := "Tv",
           url := "https://www.olx.pt/d/tv-IDxY7.html" }] := by decide
  refine ⟨?_, ?_⟩
  · refine h.1
      { id := "xY7", title := "Tv", url := "https://www.olx.pt/d/tv-IDxY7.html" } ?_
    rw [hlist]
    exact List.mem_singleton.mpr rfl
  · exact (h.2.2 [] rfl rfl).2.2

/-- C10: on a detail page every per-field extraction failure degrades to a
default instead of failing the call: with a resolved URL and a successful
navigation, getListingDetails returns a success Result whose Listing carries
the page texts as-is — title is the raw text (the empty string when the title
selector matched nothing), price, description and location become undefined
when empty, and the seller object follows extractSellerInfo — for every
combination of missing fields. -/
theorem getListingDetails_field_defaults (cache : Cache) (findResult : String)
    (page : DetailPage) (listingId u : String)
    (hcache : cacheGet cache listingId = some u) (hu : u ≠ "")
    (hgoto : page.gotoError = none) :
    getListingDetails cache findResult page false false listingId
      = Result.success
          { id := listingId
            title := page.titleText
            price := optOfText page.priceText
            location := optOfText page.locationText
            url := u
            description := optOfText page.descriptionText
            seller := extractSellerInfo page } := by
  have hperf : performGetListingDetails cache findResult page false false listingId
      = (JsOutcome.ok
          { id := listingId
            title := page.titleText
            price := optOfText page.priceText
            location := optOfText page.locationText
            url := u
            description := optOfText page.descriptionText
            seller := extractSellerInfo page }, false, true) := by
    unfold performGetListingDetails
    simp [hcache, hu, hgoto]
  unfold getListingDetails
  simp only [hperf, scraperConfigRetries]
  rw [retryOperation_const_ok]
  rfl

/-- Witness for getListingDetails_field_defaults: an all-empty detail page
still yields success, with an empty title and no seller. -/
theorem getListingDetails_field_defaults_witness :
    getListingDetails [("xY7", "https://www.olx.pt/d/tv-IDxY7.html")] ""
        emptyDetailPage false false "xY7"
      = Result.success
          { id := "xY7", title := "",
            url := "https://www.olx.pt/d/tv-IDxY7.html" } := by
  have h := getListingDetails_field_defaults
    [("xY7", "https://www.olx.pt/d/tv-IDxY7.html")] "" emptyDetailPage
    "xY7" "https://www.olx.pt/d/tv-IDxY7.html" (by decide) (by decide) rfl
  exact h

/-- ASCII alphanumeric class of the listing-id regex. -/
def isAlnumAscii (c : Char) : Bool :=
  ('A' ≤ c && c ≤ 'Z') || ('a' ≤ c && c ≤ 'z') || ('0' ≤ c && c ≤ '9')

/-- The literal suffix of the listing-id regex. -/
def dotHtml : List Char :=
  '.' :: 'h' :: 't' :: 'm' :: 'l' :: []

/-- Greedy backtracking over the candidate group: try the longest prefix of
the alphanumeric run first, then shorter ones, requiring the .html suffix
right after the group; group length at least 1. -/
def tryGroupLens (rest : List Char) : Nat → Option (List Char)
  | 0 => none
  | n + 1 =>
    if List.isPrefixOf dotHtml (rest.drop (n + 1)) then some (rest.take (n + 1))
    else tryGroupLens rest n

/-- One attempted match of the regex ID([A-Za-z0-9]+)\\.html at the head of
the character list, returning the captured group. -/
def matchIdAt : List Char → Option (List Char)
  | 'I' :: 'D' :: rest => tryGroupLens rest (rest.takeWhile isAlnumAscii).length
  | _ => none

/-- Leftmost match of the listing-id regex: try every position left to
right. -/
def findIdMatch : List Char → Option (List Char)
  | [] => none
  | c :: rest =>
    match matchIdAt (c :: rest) with
    | some g => some g
    | none => findIdMatch rest

/-- extractListingId as implemented identically by OLXPLScraper, OLXPTScraper
and GenericOlxScraper: the first regex capture, else Date.now().toString();
the clock is the explicit now argument. -/
def extractListingId (url : String) (now : Nat) : String :=
  match findIdMatch url.toList with
  | some g => String.mk g
  | none => toString now

theorem findIdMatch_append {ys : List Char} (h : (findIdMatch ys).isSome) :
    ∀ xs : List Char, (findIdMatch (xs ++ ys)).isSome := by
  intro xs
  induction xs with
  | nil => simpa using h
  | cons x xs ih =>
    rw [List.cons_append, findIdMatch]
    cases hm : matchIdAt (x :: (xs ++ ys)) <;> simp [ih]

/-- C7 (amended): extractListingId is deterministic on every URL the id
pattern matches — in particular the pattern survives resolving a matching
relative href against the base URL — while a URL the pattern does not match
gets the current timestamp as id, which differs between calls made at
different clock values. -/
theorem extractListingId_deterministic (url : String) (t1 t2 : Nat)
    (base href : String) (h : (findIdMatch url.toList).isSome) :
    extractListingId url t1 = extractListingId url t2
      ∧ ((findIdMatch href.toList).isSome →
          (findIdMatch (resolveUrl base href).toList).isSome) := by
  constructor
  · unfold extractListingId
    rcases hm : findIdMatch url.toList with _ | g
    · rw [hm] at h; simp at h
    · rfl
  · intro hh
    unfold resolveUrl
    split_ifs
    · exact hh
    · show (findIdMatch (base ++ href).toList).isSome
      have : (base ++ href).toList = base.toList ++ href.toList := by
        simp [String.toList, String.data_append]
      rw [this]
      exact findIdMatch_append hh base.toList
    · show (findIdMatch (base ++ "/" ++ href).toList).isSome
      have : (base ++ "/" ++ href).toList = (base.toList ++ '/' :: []) ++ href.toList := by
        simp [String.toList, String.data_append]
      rw [this]
      exact findIdMatch_append hh (base.toList ++ '/' :: [])

/-- Counterexample to C7 as stated: on a URL without the id pattern the
fallback is the timestamp, so two calls at different clock values return
different ids. -/
theorem extractListingId_nondeterministic_counterexample :
    extractListingId "https://www.olx.pl/d/oferta/telewizor" 0
      ≠ extractListingId "https://www.olx.pl/d/oferta/telewizor" 1 := by decide

/-- Witness for extractListingId_deterministic on a matching URL. -/
theorem extractListingId_deterministic_witness :
    extractListingId "x-IDabc7.html" 3 = extractListingId "x-IDabc7.html" 99
      ∧ extractListingId "x-IDabc7.html" 3 = "abc7"
      ∧ (findIdMatch (resolveUrl "https://www.olx.pt" "/d/x-IDabc7.html").toList).isSome
          = true := by
  have h := extractListingId_deterministic "x-IDabc7.html" 3 99
    "https://www.olx.pt" "/d/x-IDabc7.html" (by decide)
  refine ⟨h.1, by decide, ?_⟩
  have h2 := h.2 (by decide)
  simpa using h2

end Olx
